import Mathlib

/-!
# Verification of the SVG layer cache (`src/widgets/svg.rs`)

Shallow embedding of the SVG widget module: style and stroke-option types,
the tessellation dispatch (with the external lyon tessellators abstracted as
an oracle supplying raw vertex/index streams), the mesh joiner, the layer
cache with its CPU mesh maps and lazily materialized GPU buffer maps, the
SVG parsing entry point, and the cubic-Bezier arc-length sampler.

Conventions:
* `f32` scalars are modelled as `ℚ` (the module's arithmetic on them is
  exact field arithmetic except for `sqrt`, which is abstracted — see
  `BezierControlPoint.distanceW`).
* `usize`/`u32`/`u16` are modelled as `Nat`; `u32` wraparound is written
  explicitly as `% 2 ^ 32` where the source performs `as u32` additions.
* Rust `HashMap`s become association lists (`AListT`) with
  insert-replaces / remove-deletes semantics.
* A Rust panic is modelled by `Outcome.panicked`.
-/

/-- Possible result of running a piece of Rust code that may panic
(`unwrap` on an error aborts the process). -/
inductive Outcome (α : Type) where
  | panicked : Outcome α
  | ok (a : α) : Outcome α
deriving DecidableEq

/-- `webrender::api::ColorU` — 8-bit RGBA color. -/
structure ColorU where
  r : Nat
  g : Nat
  b : Nat
  a : Nat
deriving DecidableEq

/-- `SvgLineCap` from the source. -/
inductive SvgLineCap where
  | Butt
  | Square
  | Round
deriving DecidableEq

/-- `impl Default for SvgLineCap`: `SvgLineCap::Butt`. -/
def SvgLineCap.default : SvgLineCap := SvgLineCap.Butt

/-- `SvgLineJoin` from the source. -/
inductive SvgLineJoin where
  | Miter
  | MiterClip
  | Round
  | Bevel
deriving DecidableEq

/-- `impl Default for SvgLineJoin`: `SvgLineJoin::Miter`. -/
def SvgLineJoin.default : SvgLineJoin := SvgLineJoin.Miter

/-- lyon's `LineCap` (external collaborator type). -/
inductive LineCap where
  | Butt
  | Square
  | Round
deriving DecidableEq

/-- lyon's `LineJoin` (external collaborator type). -/
inductive LineJoin where
  | Miter
  | MiterClip
  | Round
  | Bevel
deriving DecidableEq

/-- Rust `as usize` cast of a nonnegative float: truncation toward zero. -/
def f32ToUsize (q : ℚ) : Nat := (Rat.floor q).toNat

/-- `SvgStrokeOptions` from the source: like lyon's stroke options
"except the thickness is a usize (f32 * 1000 as usize), in order to
implement Hash". Scalar fields hold the value scaled by 1000. -/
structure SvgStrokeOptions where
  start_cap : SvgLineCap
  end_cap : SvgLineCap
  line_join : SvgLineJoin
  line_width : Nat
  miter_limit : Nat
  tolerance : Nat
  apply_line_width : Bool
deriving DecidableEq

/-- `impl Default for SvgStrokeOptions`: caps/join defaults plus
`(DEFAULT_LINE_WIDTH * 1000.0) as usize` etc. with
`DEFAULT_LINE_WIDTH = 1.0`, `DEFAULT_MITER_LIMIT = 4.0`,
`DEFAULT_TOLERANCE = 0.1`. -/
def SvgStrokeOptions.default : SvgStrokeOptions :=
  { start_cap := SvgLineCap.default
    end_cap := SvgLineCap.default
    line_join := SvgLineJoin.default
    line_width := f32ToUsize (1 * 1000)
    miter_limit := f32ToUsize (4 * 1000)
    tolerance := f32ToUsize ((1/10) * 1000)
    apply_line_width := true }

/-- lyon's `StrokeOptions` (external collaborator type): float-valued
stroke parameters consumed by the stroke tessellator. -/
structure StrokeOptions where
  start_cap : LineCap
  end_cap : LineCap
  line_join : LineJoin
  line_width : ℚ
  miter_limit : ℚ
  tolerance : ℚ
  apply_line_width : Bool
deriving DecidableEq

/-- Modelled from the spec: lyon's documented `StrokeOptions::default()`
(external crate, not in `src/`): butt caps, miter join, line width 1.0,
miter limit 4.0, tolerance 0.1, line width applied. -/
def StrokeOptions.default : StrokeOptions :=
  { start_cap := LineCap.Butt
    end_cap := LineCap.Butt
    line_join := LineJoin.Miter
    line_width := 1
    miter_limit := 4
    tolerance := 1/10
    apply_line_width := true }

/-- lyon `StrokeOptions::with_tolerance`. -/
def StrokeOptions.with_tolerance (s : StrokeOptions) (t : ℚ) : StrokeOptions :=
  { s with tolerance := t }

/-- lyon `StrokeOptions::with_start_cap`. -/
def StrokeOptions.with_start_cap (s : StrokeOptions) (c : LineCap) : StrokeOptions :=
  { s with start_cap := c }

/-- lyon `StrokeOptions::with_end_cap`. -/
def StrokeOptions.with_end_cap (s : StrokeOptions) (c : LineCap) : StrokeOptions :=
  { s with end_cap := c }

/-- lyon `StrokeOptions::with_line_join`. -/
def StrokeOptions.with_line_join (s : StrokeOptions) (j : LineJoin) : StrokeOptions :=
  { s with line_join := j }

/-- lyon `StrokeOptions::with_line_width`. -/
def StrokeOptions.with_line_width (s : StrokeOptions) (w : ℚ) : StrokeOptions :=
  { s with line_width := w }

/-- lyon `StrokeOptions::with_miter_limit`. -/
def StrokeOptions.with_miter_limit (s : StrokeOptions) (m : ℚ) : StrokeOptions :=
  { s with miter_limit := m }

/-- lyon `StrokeOptions::dont_apply_line_width`. -/
def StrokeOptions.dont_apply_line_width (s : StrokeOptions) : StrokeOptions :=
  { s with apply_line_width := false }

/-- `impl Into<LineCap> for SvgLineCap`. -/
def SvgLineCap.intoLineCap : SvgLineCap → LineCap
  | SvgLineCap.Butt => LineCap.Butt
  | SvgLineCap.Square => LineCap.Square
  | SvgLineCap.Round => LineCap.Round

/-- `impl Into<LineJoin> for SvgLineJoin`. -/
def SvgLineJoin.intoLineJoin : SvgLineJoin → LineJoin
  | SvgLineJoin.Miter => LineJoin.Miter
  | SvgLineJoin.MiterClip => LineJoin.MiterClip
  | SvgLineJoin.Round => LineJoin.Round
  | SvgLineJoin.Bevel => LineJoin.Bevel

/-- `impl Into<StrokeOptions> for SvgStrokeOptions`: rebuild the float
options from the scaled-integer fields, dividing each scalar by 1000. -/
def SvgStrokeOptions.intoStrokeOptions (s : SvgStrokeOptions) : StrokeOptions :=
  let target :=
    ((((((StrokeOptions.default.with_tolerance ((s.tolerance : ℚ) / 1000)).with_start_cap
      s.start_cap.intoLineCap).with_end_cap
      s.end_cap.intoLineCap).with_line_join
      s.line_join.intoLineJoin).with_line_width
      ((s.line_width : ℚ) / 1000)).with_miter_limit
      ((s.miter_limit : ℚ) / 1000))
  if !s.apply_line_width then target.dont_apply_line_width else target

/-- `SvgStyle`: optional stroke (color + options) and optional fill color. -/
structure SvgStyle where
  stroke : Option (ColorU × SvgStrokeOptions)
  fill : Option ColorU
deriving DecidableEq

/-- `impl Default for SvgStyle` (derived `Default`): both `None`. -/
def SvgStyle.default : SvgStyle := ⟨none, none⟩

/-- `SvgStyle::stroked`. -/
def SvgStyle.stroked (color : ColorU) (stroke_opts : SvgStrokeOptions) : SvgStyle :=
  { SvgStyle.default with stroke := some (color, stroke_opts) }

/-- `SvgStyle::filled`. -/
def SvgStyle.filled (color : ColorU) : SvgStyle :=
  { SvgStyle.default with fill := some color }

/-- `SvgCallbacks<T>` with the callback type abstracted as `C`. -/
inductive SvgCallbacks (C : Type) where
  | none : SvgCallbacks C
  | any (c : C) : SvgCallbacks C
  | some (v : List (Nat × C)) : SvgCallbacks C
deriving DecidableEq

/-- Fuel-indexed embedding of `impl PartialEq for SvgCallbacks`'s `eq`:
the body is `self == rhs`, which is exactly the call being defined, so
every unfolding step consumes fuel without examining the arguments.
Result `Option.none` means "the recursion did not terminate within the
given fuel". -/
def svgCallbacksEqFuel (C : Type) : Nat → SvgCallbacks C → SvgCallbacks C → Option Bool
  | 0, _, _ => Option.none
  | n + 1, a, b => svgCallbacksEqFuel C n a b

/-- `SvgVert`: 2-D position plus 2-D "normal" attribute. -/
structure SvgVert where
  xy : ℚ × ℚ
  normal : ℚ × ℚ
deriving DecidableEq

/-- lyon `FillVertex` (external): position and tessellator-computed normal. -/
structure FillVertexT where
  position : ℚ × ℚ
  normal : ℚ × ℚ
deriving DecidableEq

/-- lyon `StrokeVertex` (external): position and tessellator-computed normal. -/
structure StrokeVertexT where
  position : ℚ × ℚ
  normal : ℚ × ℚ
deriving DecidableEq

/-- lyon `PathEvent` (external), the subset this module constructs. -/
inductive PathEventM where
  | MoveTo (p : ℚ × ℚ)
  | LineTo (p : ℚ × ℚ)
  | QuadraticTo (ctrl dest : ℚ × ℚ)
  | CubicTo (ctrl1 ctrl2 dest : ℚ × ℚ)
  | Close
deriving DecidableEq

/-- `SvgCircle`. -/
structure SvgCircle where
  center_x : ℚ
  center_y : ℚ
  radius : ℚ
deriving DecidableEq

/-- `SvgRect`. -/
structure SvgRect where
  width : ℚ
  height : ℚ
  x : ℚ
  y : ℚ
  rx : ℚ
  ry : ℚ
deriving DecidableEq

/-- `SvgLayerType`: one primitive. -/
inductive SvgLayerType where
  | Polygon (p : List PathEventM)
  | Circle (c : SvgCircle)
  | Rect (r : SvgRect)
deriving DecidableEq

/-- `LayerType`: a single known-size primitive or a list of primitives. -/
inductive LayerTypeM where
  | KnownSize (a : SvgLayerType)
  | UnknownSize (b : List SvgLayerType)
deriving DecidableEq

/-- `LayerType::get`. -/
def LayerTypeM.get : LayerTypeM → List SvgLayerType
  | LayerTypeM.KnownSize a => [a]
  | LayerTypeM.UnknownSize b => b

/-- `LayerType::from_polygons`. -/
def LayerTypeM.from_polygons (data : List SvgLayerType) : LayerTypeM :=
  LayerTypeM.UnknownSize data

/-- `LayerType::from_single_layer`. -/
def LayerTypeM.from_single_layer (data : SvgLayerType) : LayerTypeM :=
  LayerTypeM.KnownSize data

/-- lyon `VertexBuffers<SvgVert>` (index type `u16` in the lyon version
used: index values are below `2 ^ 16`). -/
structure VertexBuffersM where
  vertices : List SvgVert
  indices : List Nat
deriving DecidableEq

/-- The fill-vertex constructor closure passed to `BuffersBuilder` in the
`SvgLayerType::Polygon` fill arm:
`SvgVert { xy: (position.x, position.y), normal: (normal.x, position.y) }`. -/
def polygonFillVertexCtor (v : FillVertexT) : SvgVert :=
  { xy := (v.position.1, v.position.2), normal := (v.normal.1, v.position.2) }

/-- The stroke-vertex constructor closure in the `Polygon` stroke arm. -/
def polygonStrokeVertexCtor (v : StrokeVertexT) : SvgVert :=
  { xy := (v.position.1, v.position.2), normal := (v.normal.1, v.position.2) }

/-- The fill-vertex constructor closure in the `Circle` fill arm. -/
def circleFillVertexCtor (v : FillVertexT) : SvgVert :=
  { xy := (v.position.1, v.position.2), normal := (v.normal.1, v.position.2) }

/-- The stroke-vertex constructor closure in the `Circle` stroke arm. -/
def circleStrokeVertexCtor (v : StrokeVertexT) : SvgVert :=
  { xy := (v.position.1, v.position.2), normal := (v.normal.1, v.position.2) }

/-- The fill-vertex constructor closure in the `Rect` fill arm. -/
def rectFillVertexCtor (v : FillVertexT) : SvgVert :=
  { xy := (v.position.1, v.position.2), normal := (v.normal.1, v.position.2) }

/-- The stroke-vertex constructor closure in the `Rect` stroke arm. -/
def rectStrokeVertexCtor (v : StrokeVertexT) : SvgVert :=
  { xy := (v.position.1, v.position.2), normal := (v.normal.1, v.position.2) }

/-- Oracle for the external lyon tessellators: for each primitive they
emit a stream of raw vertices (fed one by one through the
`BuffersBuilder` constructor closure) plus an index list.
`fillPolygon`/`strokePolygon` receive the path events and the flattening
tolerance (the path is built `flattened(tolerance)`); the stroke variants
receive the converted `StrokeOptions`. -/
structure ExtTess where
  fillPolygon : List PathEventM → ℚ → List FillVertexT × List Nat
  strokePolygon : List PathEventM → ℚ → StrokeOptions → List StrokeVertexT × List Nat
  fillCircle : (ℚ × ℚ) → ℚ → List FillVertexT × List Nat
  strokeCircle : (ℚ × ℚ) → ℚ → StrokeOptions → List StrokeVertexT × List Nat
  fillRoundedRectangle : SvgRect → List FillVertexT × List Nat
  strokeRoundedRectangle : SvgRect → StrokeOptions → List StrokeVertexT × List Nat

/-- `SvgLayerType::tesselate`: convert the optional `SvgStrokeOptions`
(`s.into()` then `with_tolerance(tolerance)`), dispatch on the primitive,
build the fill geometry always and the stroke geometry only when stroke
options are present. -/
def SvgLayerType.tesselate (ext : ExtTess) (l : SvgLayerType) (tolerance : ℚ)
    (stroke : Option SvgStrokeOptions) : VertexBuffersM × Option VertexBuffersM :=
  let strokeOpts : Option StrokeOptions :=
    stroke.map (fun s => (s.intoStrokeOptions).with_tolerance tolerance)
  let pair : VertexBuffersM × VertexBuffersM :=
    match l with
    | SvgLayerType.Polygon p =>
      let fill := ext.fillPolygon p tolerance
      let geometry : VertexBuffersM := ⟨fill.1.map polygonFillVertexCtor, fill.2⟩
      let stroke_geometry : VertexBuffersM :=
        match strokeOpts with
        | Option.some so =>
          let st := ext.strokePolygon p tolerance so
          ⟨st.1.map polygonStrokeVertexCtor, st.2⟩
        | Option.none => ⟨[], []⟩
      (geometry, stroke_geometry)
    | SvgLayerType.Circle c =>
      let fill := ext.fillCircle (c.center_x, c.center_y) c.radius
      let geometry : VertexBuffersM := ⟨fill.1.map circleFillVertexCtor, fill.2⟩
      let stroke_geometry : VertexBuffersM :=
        match strokeOpts with
        | Option.some so =>
          let st := ext.strokeCircle (c.center_x, c.center_y) c.radius so
          ⟨st.1.map circleStrokeVertexCtor, st.2⟩
        | Option.none => ⟨[], []⟩
      (geometry, stroke_geometry)
    | SvgLayerType.Rect r =>
      let fill := ext.fillRoundedRectangle r
      let geometry : VertexBuffersM := ⟨fill.1.map rectFillVertexCtor, fill.2⟩
      let stroke_geometry : VertexBuffersM :=
        match strokeOpts with
        | Option.some so =>
          let st := ext.strokeRoundedRectangle r so
          ⟨st.1.map rectStrokeVertexCtor, st.2⟩
        | Option.none => ⟨[], []⟩
      (geometry, stroke_geometry)
  if strokeOpts.isSome then (pair.1, some pair.2) else (pair.1, none)

/-- `GL_RESTART_INDEX = ::std::u32::MAX`. -/
def GL_RESTART_INDEX : Nat := 2 ^ 32 - 1

/-- `DEFAULT_GLYPH_TOLERANCE = 0.01`. -/
def DEFAULT_GLYPH_TOLERANCE : ℚ := 1/100

/-- One CPU-side mesh: vertex list plus `u32` index list. -/
abbrev MeshData := List SvgVert × List Nat

/-- Accumulator step of `tesselate_layer_data`'s `for layer in
layer_data.get()` loop. State: `(last_index, vertex_buf, index_buf,
last_stroke_index, stroke_vertex_buf, stroke_index_buf)`. The index
arithmetic `i as u32 + last_index as u32` wraps at `2 ^ 32`. -/
def tesselateLayerStep (ext : ExtTess) (tolerance : ℚ)
    (stroke_options : Option SvgStrokeOptions)
    (acc : Nat × List SvgVert × List Nat × Nat × List SvgVert × List Nat)
    (layer : SvgLayerType) :
    Nat × List SvgVert × List Nat × Nat × List SvgVert × List Nat :=
  let (last_index, vertex_buf, index_buf, last_stroke_index, stroke_vertex_buf, stroke_index_buf) := acc
  let t := layer.tesselate ext tolerance stroke_options
  let vertices_len := t.1.vertices.length
  let vertex_buf := vertex_buf ++ t.1.vertices
  let index_buf := index_buf ++ t.1.indices.map (fun i => (i + last_index) % 2 ^ 32) ++ [GL_RESTART_INDEX]
  let last_index := last_index + vertices_len
  match t.2 with
  | Option.some sv =>
    let stroke_vertices_len := sv.vertices.length
    let stroke_vertex_buf := stroke_vertex_buf ++ sv.vertices
    let stroke_index_buf := stroke_index_buf ++ sv.indices.map (fun i => (i + last_stroke_index) % 2 ^ 32) ++ [GL_RESTART_INDEX]
    let last_stroke_index := last_stroke_index + stroke_vertices_len
    (last_index, vertex_buf, index_buf, last_stroke_index, stroke_vertex_buf, stroke_index_buf)
  | Option.none =>
    (last_index, vertex_buf, index_buf, last_stroke_index, stroke_vertex_buf, stroke_index_buf)

/-- `tesselate_layer_data`: tessellate every primitive of the layer,
concatenating meshes with rebased indices and a restart sentinel after
each one; the stroke mesh is returned only when stroke options were
passed in. -/
def tesselateLayerData (ext : ExtTess) (layer_data : LayerTypeM) (tolerance : ℚ)
    (stroke_options : Option SvgStrokeOptions) : MeshData × Option MeshData :=
  let r := layer_data.get.foldl (tesselateLayerStep ext tolerance stroke_options)
    (0, [], [], 0, [], [])
  let (_, vertex_buf, index_buf, _, stroke_vertex_buf, stroke_index_buf) := r
  if stroke_options.isSome then
    ((vertex_buf, index_buf), some (stroke_vertex_buf, stroke_index_buf))
  else
    ((vertex_buf, index_buf), none)

/-- `VerticesIndicesBuffer`. -/
structure VerticesIndicesBuffer where
  vertices : List SvgVert
  indices : List Nat
deriving DecidableEq

/-- `SvgLayerResource`: a cache reference or an inlined mesh. -/
inductive SvgLayerResource where
  | Reference (id : Nat)
  | Direct (style : SvgStyle) (fill : Option VerticesIndicesBuffer)
      (stroke : Option VerticesIndicesBuffer)
deriving DecidableEq

/-- `quick_circle`: tessellate one circle, no stroke. -/
def quickCircle (ext : ExtTess) (circle : SvgCircle) (fill_color : ColorU) : SvgLayerResource :=
  let fill := (tesselateLayerData ext (LayerTypeM.from_single_layer (SvgLayerType.Circle circle)) (1/100) none).1
  let style := SvgStyle.filled fill_color
  SvgLayerResource.Direct style (some ⟨fill.1, fill.2⟩) none

/-- `quick_circles`: tessellate several circles into one mesh, no stroke. -/
def quickCircles (ext : ExtTess) (circles : List SvgCircle) (fill_color : ColorU) : SvgLayerResource :=
  let circleLayers := circles.map SvgLayerType.Circle
  let fill := (tesselateLayerData ext (LayerTypeM.from_polygons circleLayers) (1/100) none).1
  let style := SvgStyle.filled fill_color
  SvgLayerResource.Direct style (some ⟨fill.1, fill.2⟩) none

/-- The per-line polygon construction inside `quick_lines`: a `MoveTo` to
the first point followed by `LineTo`s to the remaining points. -/
def quickLinesPolygon (line : List (ℚ × ℚ)) : SvgLayerType :=
  match line with
  | [] => SvgLayerType.Polygon []
  | first_point :: rest =>
    SvgLayerType.Polygon
      (PathEventM.MoveTo first_point :: rest.map PathEventM.LineTo)

/-- `quick_lines`: keep only input lines with `len() > 2`, convert each to
a polygon, tessellate the stroke only. The final `stroke.unwrap()` is safe
in the source because `Some(stroke_options)` was passed; it is modelled by
`Option.getD`. -/
def quickLines (ext : ExtTess) (lines : List (List (ℚ × ℚ))) (stroke_color : ColorU)
    (stroke_options : Option SvgStrokeOptions) : SvgLayerResource :=
  let stroke_options := stroke_options.getD SvgStrokeOptions.default
  let style := SvgStyle.stroked stroke_color stroke_options
  let polygons := (lines.filter (fun line => line.length > 2)).map quickLinesPolygon
  let r := tesselateLayerData ext (LayerTypeM.from_polygons polygons) (1/100) (some stroke_options)
  let stroke := r.2.getD ([], [])
  SvgLayerResource.Direct style none (some ⟨stroke.1, stroke.2⟩)

/-- Tail of `join_vertex_buffers`'s loop: state is the running vertex
count plus both output buffers; each mesh appends its vertices, its
indices rebased by `last_index` (wrapping `u32` addition), and one
restart sentinel. -/
def joinGo : List VertexBuffersM → Nat → List SvgVert → List Nat → VerticesIndicesBuffer
  | [], _, vertex_buf, index_buf => ⟨vertex_buf, index_buf⟩
  | m :: rest, last_index, vertex_buf, index_buf =>
    joinGo rest (last_index + m.vertices.length) (vertex_buf ++ m.vertices)
      (index_buf ++ (m.indices.map (fun i => (i + last_index) % 2 ^ 32) ++ [GL_RESTART_INDEX]))

/-- `join_vertex_buffers`. -/
def joinVertexBuffers (input : List VertexBuffersM) : VerticesIndicesBuffer :=
  joinGo input 0 [] []

/-- Split a `u32` index list at every occurrence of the separator value:
`n` separators yield `n + 1` runs. Used to read back the per-mesh index
runs between restart sentinels. -/
def splitOnSep (s : Nat) : List Nat → List (List Nat)
  | [] => [[]]
  | x :: rest =>
    if x = s then [] :: splitOnSep s rest
    else
      match splitOnSep s rest with
      | [] => [[x]]
      | r :: rs => (x :: r) :: rs

/-- The spec-side description of the joiner's index output: each source
mesh's index list rebased by the (exact, unwrapped) total vertex count of
all prior meshes, in submission order. -/
def rebasedRuns : List VertexBuffersM → Nat → List (List Nat)
  | [], _ => []
  | m :: rest, acc => m.indices.map (fun i => i + acc) :: rebasedRuns rest (acc + m.vertices.length)

/-- `FastHashMap<SvgLayerId, _>` etc. modelled as an association list on
`Nat` keys. -/
abbrev AListT (α : Type) := List (Nat × α)

/-- `HashMap::get`. -/
def alistLookup {α : Type} : AListT α → Nat → Option α
  | [], _ => Option.none
  | (k, v) :: rest, id => if k = id then Option.some v else alistLookup rest id

/-- `HashMap::remove` (the removed value is unused by the source). -/
def alistRemove {α : Type} : AListT α → Nat → AListT α
  | [], _ => []
  | (k2, v) :: rest, k =>
    if k2 = k then alistRemove rest k else (k2, v) :: alistRemove rest k

/-- `HashMap::insert`: the new binding replaces any previous binding of
the same key. -/
def alistInsert {α : Type} (l : AListT α) (k : Nat) (v : α) : AListT α :=
  (k, v) :: alistRemove l k

/-- `resvg::usvg::Transform` (external): 2-D affine transform. -/
structure TransformM where
  a : ℚ
  b : ℚ
  c : ℚ
  d : ℚ
  e : ℚ
  f : ℚ
deriving DecidableEq

/-- `resvg::usvg::ViewBox` (external): view-box rectangle. -/
structure ViewBoxM where
  x : ℚ
  y : ℚ
  w : ℚ
  h : ℚ
deriving DecidableEq

/-- `SvgLayer<T>`: geometry, callbacks, style, optional transform
reference, view-box reference. Layer and transform ids are the `usize`
values minted by the global counters. -/
structure SvgLayerM where
  data : LayerTypeM
  callbacks : SvgCallbacks Nat
  style : SvgStyle
  transform_id : Option Nat
  view_box_id : Nat
deriving DecidableEq

/-- `SvgLayer::default_from_layer` (the fresh view-box id is passed in
for the `new_view_box_id()` call). -/
def SvgLayerM.default_from_layer (data : LayerTypeM) (style : SvgStyle)
    (view_box_id : Nat) : SvgLayerM :=
  { data := data
    callbacks := SvgCallbacks.none
    style := style
    transform_id := none
    view_box_id := view_box_id }

/-- `SvgCache<T>`: the five id-keyed maps plus transform and view-box
tables. GPU buffer objects (`VertexBuffer`, `IndexBuffer`) are modelled
by the uploaded mesh data itself, since `VertexBuffer::new`/
`IndexBuffer::new` copy the CPU-side vectors. The shader cell is not
modelled (no claim touches it). -/
structure SvgCacheM where
  layers : AListT SvgLayerM
  gpu_ready_to_upload_cache : AListT MeshData
  stroke_gpu_ready_to_upload_cache : AListT MeshData
  vertex_index_buffer_cache : AListT MeshData
  stroke_vertex_index_buffer_cache : AListT MeshData
  transforms : AListT TransformM
  view_boxes : AListT ViewBoxM
deriving DecidableEq

/-- `SvgCache::default()` / `SvgCache::empty()`. -/
def SvgCacheM.empty : SvgCacheM := ⟨[], [], [], [], [], [], []⟩

/-- `fill_vertex_buffer_cache`: if the GPU map (`rmut`) already holds the
id, leave it; otherwise look the id up in the CPU map (`rnotmut`) —
returning `none` without mutation if absent — and upload the mesh.
Returns the updated GPU map and `rmut.get(id)`. -/
def fillVertexBufferCache (id : Nat) (rmut : AListT MeshData)
    (rnotmut : AListT MeshData) : AListT MeshData × Option MeshData :=
  let rmut2 :=
    match alistLookup rmut id with
    | Option.some _ => rmut
    | Option.none =>
      match alistLookup rnotmut id with
      | Option.none => rmut
      | Option.some s => alistInsert rmut id s
  (rmut2, alistLookup rmut2 id)

/-- `SvgCache::get_stroke_vertices_and_indices` (state-passing form: the
`UnsafeCell` mutation of the stroke GPU map becomes an explicit state
update). -/
def SvgCacheM.get_stroke_vertices_and_indices (c : SvgCacheM) (id : Nat) :
    SvgCacheM × Option MeshData :=
  let r := fillVertexBufferCache id c.stroke_vertex_index_buffer_cache
    c.stroke_gpu_ready_to_upload_cache
  ({ c with stroke_vertex_index_buffer_cache := r.1 }, r.2)

/-- `SvgCache::get_vertices_and_indices` (state-passing form). -/
def SvgCacheM.get_vertices_and_indices (c : SvgCacheM) (id : Nat) :
    SvgCacheM × Option MeshData :=
  let r := fillVertexBufferCache id c.vertex_index_buffer_cache
    c.gpu_ready_to_upload_cache
  ({ c with vertex_index_buffer_cache := r.1 }, r.2)

/-- `SvgCache::get_style`; the source `unwrap`s the lookup, so a missing
id is a panic. -/
def SvgCacheM.get_style (c : SvgCacheM) (id : Nat) : Outcome SvgStyle :=
  match alistLookup c.layers id with
  | Option.some layer => Outcome.ok layer.style
  | Option.none => Outcome.panicked

/-- `SvgCache::add_layer`. `new_svg_id` is the value returned by the
global `new_svg_layer_id()` counter. Tessellates at
`DEFAULT_GLYPH_TOLERANCE` with the layer's stroke options
(`layer.style.stroke.and_then(|s| Some(s.1))`), stores the fill mesh
always and the stroke mesh when produced, then stores the layer. -/
def SvgCacheM.add_layer (ext : ExtTess) (c : SvgCacheM) (new_svg_id : Nat)
    (layer : SvgLayerM) : SvgCacheM × Nat :=
  let t := tesselateLayerData ext layer.data DEFAULT_GLYPH_TOLERANCE
    (layer.style.stroke.map (fun s => s.2))
  let c1 := { c with gpu_ready_to_upload_cache :=
                (alistInsert c.gpu_ready_to_upload_cache new_svg_id t.1) }
  let c2 :=
    match t.2 with
    | Option.some sb =>
      { c1 with stroke_gpu_ready_to_upload_cache :=
                  (alistInsert c1.stroke_gpu_ready_to_upload_cache new_svg_id sb) }
    | Option.none => c1
  let c3 := { c2 with layers := alistInsert c2.layers new_svg_id layer }
  (c3, new_svg_id)

/-- `SvgCache::delete_layer`: remove the id from all five id-keyed maps. -/
def SvgCacheM.delete_layer (c : SvgCacheM) (svg_id : Nat) : SvgCacheM :=
  { c with
    layers := alistRemove c.layers svg_id
    gpu_ready_to_upload_cache := alistRemove c.gpu_ready_to_upload_cache svg_id
    stroke_gpu_ready_to_upload_cache := alistRemove c.stroke_gpu_ready_to_upload_cache svg_id
    vertex_index_buffer_cache := alistRemove c.vertex_index_buffer_cache svg_id
    stroke_vertex_index_buffer_cache := alistRemove c.stroke_vertex_index_buffer_cache svg_id }

/-- `SvgCache::clear_all_layers`: empty the five id-keyed maps (the
transform and view-box tables are untouched by the source). -/
def SvgCacheM.clear_all_layers (c : SvgCacheM) : SvgCacheM :=
  { c with
    layers := []
    gpu_ready_to_upload_cache := []
    stroke_gpu_ready_to_upload_cache := []
    vertex_index_buffer_cache := []
    stroke_vertex_index_buffer_cache := [] }

/-- `SvgCache::add_transforms`: insert every pair, later entries
overwriting earlier ones. -/
def SvgCacheM.add_transforms (c : SvgCacheM) (ts : AListT TransformM) : SvgCacheM :=
  { c with transforms := ts.foldl (fun acc p => alistInsert acc p.1 p.2) c.transforms }

/-- `resvg::usvg::Color` (external). -/
structure UsvgColor where
  red : Nat
  green : Nat
  blue : Nat
deriving DecidableEq

/-- `resvg::usvg::Paint` (external): solid color or some other paint
server (gradient link). -/
inductive UsvgPaint where
  | Color (c : UsvgColor)
  | Other
deriving DecidableEq

/-- `resvg::usvg::Fill` (external), the fields read by `parse_from`. -/
structure UsvgFill where
  paint : UsvgPaint
  opacity : ℚ
deriving DecidableEq

/-- `resvg::usvg::LineCap` (external). -/
inductive UsvgLineCap where
  | Butt
  | Round
  | Square
deriving DecidableEq

/-- `resvg::usvg::LineJoin` (external). -/
inductive UsvgLineJoin where
  | Miter
  | Bevel
  | Round
deriving DecidableEq

/-- `resvg::usvg::Stroke` (external), the fields read by
`convert_stroke`. -/
structure UsvgStroke where
  paint : UsvgPaint
  opacity : ℚ
  width : ℚ
  linecap : UsvgLineCap
  linejoin : UsvgLineJoin
deriving DecidableEq

/-- `resvg::usvg::PathSegment` (external). -/
inductive UsvgPathSegment where
  | MoveTo (x y : ℚ)
  | LineTo (x y : ℚ)
  | CurveTo (x1 y1 x2 y2 x y : ℚ)
  | ClosePath
deriving DecidableEq

/-- One `NodeKind::Path` node of the usvg tree, with its node transform. -/
structure UsvgPath where
  transform : TransformM
  fill : Option UsvgFill
  stroke : Option UsvgStroke
  segments : List UsvgPathSegment
deriving DecidableEq

/-- `resvg::usvg::Tree` (external), reduced to what `parse_from` reads:
the document view box and the `Path` nodes among the root's descendants,
in document order. -/
structure UsvgTree where
  view_box : ViewBoxM
  paths : List UsvgPath
deriving DecidableEq

/-- `resvg::usvg::Error` (external); its contents are never inspected. -/
structure SvgErrorM where
  code : Nat
deriving DecidableEq

/-- `std::io::Error` (external); its contents are never inspected. -/
structure IoErrorM where
  code : Nat
deriving DecidableEq

/-- `SvgParseError`: "Syntax error in the Svg" or "Io error reading the
Svg". -/
inductive SvgParseError where
  | FailedToParseSvg (e : SvgErrorM)
  | IoError (e : IoErrorM)
deriving DecidableEq

/-- `FALLBACK_COLOR`: black. -/
def FALLBACK_COLOR : UsvgColor := ⟨0, 0, 0⟩

/-- Rust `as u8` cast of `opacity * 255.0` (saturating float-to-int
cast). -/
def f32ToU8 (q : ℚ) : Nat := (min 255 (max 0 (Rat.floor q))).toNat

/-- `svg_to_lyon::as_event`: map a usvg path segment to a lyon path
event. -/
def as_event : UsvgPathSegment → PathEventM
  | UsvgPathSegment.MoveTo x y => PathEventM.MoveTo (x, y)
  | UsvgPathSegment.LineTo x y => PathEventM.LineTo (x, y)
  | UsvgPathSegment.CurveTo x1 y1 x2 y2 x y => PathEventM.CubicTo (x1, y1) (x2, y2) (x, y)
  | UsvgPathSegment.ClosePath => PathEventM.Close

/-- `svg_to_lyon::convert_stroke`: color (with fallback), opacity scaled
to `u8`, and stroke options with `line_width = (width * 1000.0) as usize`
and both caps set from the usvg line cap; the remaining fields are the
`SvgStrokeOptions` defaults. -/
def convert_stroke (s : UsvgStroke) : ColorU × SvgStrokeOptions :=
  let color := match s.paint with
    | UsvgPaint.Color c => c
    | UsvgPaint.Other => FALLBACK_COLOR
  let line_cap := match s.linecap with
    | UsvgLineCap.Butt => SvgLineCap.Butt
    | UsvgLineCap.Square => SvgLineCap.Square
    | UsvgLineCap.Round => SvgLineCap.Round
  let line_join := match s.linejoin with
    | UsvgLineJoin.Miter => SvgLineJoin.Miter
    | UsvgLineJoin.Bevel => SvgLineJoin.Bevel
    | UsvgLineJoin.Round => SvgLineJoin.Round
  let opts := { SvgStrokeOptions.default with
    line_width := f32ToUsize (s.width * 1000)
    start_cap := line_cap
    end_cap := line_cap
    line_join := line_join }
  (⟨color.red, color.green, color.blue, f32ToU8 (s.opacity * 255)⟩, opts)

/-- The global id counters (`SVG_LAYER_ID`, `SVG_TRANSFORM_ID`,
`SVG_VIEW_BOX_ID`), threaded explicitly. -/
structure IdGen where
  nextLayer : Nat
  nextTransform : Nat
  nextViewBox : Nat
deriving DecidableEq

/-- Fold state of `parse_from`'s descendant walk: the `transform`
variable (the first path node's transform, once seen), the transform
table under construction, the id counters, and the layers in document
order (accumulated in reverse). -/
structure ParseFold where
  transform : Option TransformM
  transforms : AListT TransformM
  gen : IdGen
  layersRev : List SvgLayerM
deriving DecidableEq

/-- One iteration of `parse_from`'s `for node in descendants` loop for a
`Path` node: remember the first node's transform, build the style from
the node's fill (fallback color, opacity as `u8`) and stroke
(`convert_stroke`), mint a fresh transform id bound to the remembered
first transform, and emit the layer (geometry = the path's segments as
one `Polygon`). -/
def parseFoldStep (view_box_id : Nat) (st : ParseFold) (p : UsvgPath) : ParseFold :=
  let transform := if st.transform.isNone then some p.transform else st.transform
  let fill : Option ColorU := p.fill.map (fun f =>
    let color := match f.paint with
      | UsvgPaint.Color c => c
      | UsvgPaint.Other => FALLBACK_COLOR
    ⟨color.red, color.green, color.blue, f32ToU8 (f.opacity * 255)⟩)
  let strokeStyle := p.stroke.map convert_stroke
  let style : SvgStyle := { stroke := strokeStyle, fill := fill }
  let (transform_id, gen2, transforms2) :=
    match transform with
    | Option.some t =>
      (Option.some st.gen.nextTransform,
       { st.gen with nextTransform := st.gen.nextTransform + 1 },
       alistInsert st.transforms st.gen.nextTransform t)
    | Option.none => (Option.none, st.gen, st.transforms)
  let layer : SvgLayerM :=
    { data := LayerTypeM.KnownSize (SvgLayerType.Polygon (p.segments.map as_event))
      callbacks := SvgCallbacks.none
      style := style
      transform_id := transform_id
      view_box_id := view_box_id }
  { transform := transform
    transforms := transforms2
    gen := gen2
    layersRev := layer :: st.layersRev }

/-- `svg_to_lyon::parse_from`. `parseTree` is the external
`Tree::from_str` collaborator. The source calls `.unwrap()` on its
result, so a parse error is a panic, not an `Err`; consequently the
`Err` case of the declared `Result` is never produced. On success: mint
a view-box id, record the view box, and walk the path nodes. -/
def parse_from (parseTree : String → Except SvgErrorM UsvgTree) (svg_source : String)
    (gen : IdGen) (view_boxes : AListT ViewBoxM) :
    Outcome (Except SvgParseError (List SvgLayerM × AListT TransformM) × IdGen × AListT ViewBoxM) :=
  match parseTree svg_source with
  | Except.error _ => Outcome.panicked
  | Except.ok rtree =>
    let view_box_id := gen.nextViewBox
    let gen1 := { gen with nextViewBox := gen.nextViewBox + 1 }
    let view_boxes1 := alistInsert view_boxes view_box_id rtree.view_box
    let st := rtree.paths.foldl (parseFoldStep view_box_id)
      ⟨none, [], gen1, []⟩
    Outcome.ok (Except.ok (st.layersRev.reverse, st.transforms), st.gen, view_boxes1)

/-- The `map(|layer| self.add_layer(layer))` loop of `add_svg`, minting
layer ids from the global counter. -/
def addLayersGo (ext : ExtTess) : List SvgLayerM → SvgCacheM → Nat → List Nat → SvgCacheM × Nat × List Nat
  | [], c, nextLayer, idsRev => (c, nextLayer, idsRev.reverse)
  | layer :: rest, c, nextLayer, idsRev =>
    let r := c.add_layer ext nextLayer layer
    addLayersGo ext rest r.1 (nextLayer + 1) (r.2 :: idsRev)

/-- `SvgCache::add_svg`: run `parse_from` (panicking on a malformed
document, see `parse_from`), merge the returned transforms, then insert
the layers in document order, returning their ids in that order. -/
def SvgCacheM.add_svg (ext : ExtTess) (parseTree : String → Except SvgErrorM UsvgTree)
    (c : SvgCacheM) (gen : IdGen) (input : String) :
    Outcome (Except SvgParseError (List Nat) × SvgCacheM × IdGen) :=
  match parse_from parseTree input gen c.view_boxes with
  | Outcome.panicked => Outcome.panicked
  | Outcome.ok (Except.error e, gen1, vb1) =>
    Outcome.ok (Except.error e, { c with view_boxes := vb1 }, gen1)
  | Outcome.ok (Except.ok (layerList, transforms), gen1, vb1) =>
    let c1 := { c with view_boxes := vb1 }
    let c2 := c1.add_transforms transforms
    let r := addLayersGo ext layerList c2 gen1.nextLayer []
    Outcome.ok (Except.ok r.2.2, r.1, { gen1 with nextLayer := r.2.1 })

/-- The cache-consistency invariant: every id in `layers` has a fill
mesh in the CPU fill map and — when the layer's style has a stroke — a
stroke mesh in the CPU stroke map; and each GPU buffer map's key set is
a subset of the corresponding CPU mesh map's key set. -/
def cacheConsistent (c : SvgCacheM) : Prop :=
  (∀ id layer, alistLookup c.layers id = some layer →
    (alistLookup c.gpu_ready_to_upload_cache id).isSome = true ∧
    (layer.style.stroke.isSome = true →
      (alistLookup c.stroke_gpu_ready_to_upload_cache id).isSome = true)) ∧
  (∀ id, (alistLookup c.vertex_index_buffer_cache id).isSome = true →
    (alistLookup c.gpu_ready_to_upload_cache id).isSome = true) ∧
  (∀ id, (alistLookup c.stroke_vertex_index_buffer_cache id).isSome = true →
    (alistLookup c.stroke_gpu_ready_to_upload_cache id).isSome = true)

/-- `BEZIER_SAMPLE_RATE = 10`. -/
def BEZIER_SAMPLE_RATE : Nat := 10

/-- `BezierControlPoint`. -/
structure BezierControlPoint where
  x : ℚ
  y : ℚ
deriving DecidableEq

/-- `BezierControlPoint::distance`:
`((other.x - self.x).powi(2) + (other.y - self.y).powi(2)).sqrt()`.
`f32::sqrt` is an external numeric primitive with no exact rational
counterpart, so it is abstracted as the parameter `sqrtFn`; theorems
assume only the properties of `sqrtFn` they need. -/
def BezierControlPoint.distanceW (sqrtFn : ℚ → ℚ) (self other : BezierControlPoint) : ℚ :=
  sqrtFn ((other.x - self.x) ^ 2 + (other.y - self.y) ^ 2)

/-- The `[BezierControlPoint; 4]` argument of the Bezier functions. -/
structure CubicCurve where
  p0 : BezierControlPoint
  p1 : BezierControlPoint
  p2 : BezierControlPoint
  p3 : BezierControlPoint
deriving DecidableEq

/-- `cubic_interpolate_bezier`: the cubic Bernstein blend. -/
def cubic_interpolate_bezier (curve : CubicCurve) (t : ℚ) : BezierControlPoint :=
  let one_minus := 1 - t
  let one_minus_square := one_minus ^ 2
  let one_minus_cubic := one_minus ^ 3
  let x := one_minus_cubic * curve.p0.x
    + 3 * one_minus_square * t * curve.p1.x
    + 3 * one_minus * t ^ 2 * curve.p2.x
    + t ^ 3 * curve.p3.x
  let y := one_minus_cubic * curve.p0.y
    + 3 * one_minus_square * t * curve.p1.y
    + 3 * one_minus * t ^ 2 * curve.p2.y
    + t ^ 3 * curve.p3.y
  ⟨x, y⟩

/-- The `sampled_bezier_points` array built by
`SampledBezierCurve::from_curve`: slot 0 keeps the array-fill value
`curve[0]`, slots `1..=10` are set to the Bernstein blend at `i / 10`,
and slot 10 is then overwritten with `curve[3]`. -/
def sampledBezierPoint (curve : CubicCurve) (i : Nat) : BezierControlPoint :=
  if i = 0 then curve.p0
  else if i = BEZIER_SAMPLE_RATE then curve.p3
  else cubic_interpolate_bezier curve ((i : ℚ) / (BEZIER_SAMPLE_RATE : ℚ))

/-- Length of the `i`-th window of `sampled_bezier_points.windows(2)`. -/
def bezierSegmentLength (sqrtFn : ℚ → ℚ) (curve : CubicCurve) (i : Nat) : ℚ :=
  BezierControlPoint.distanceW sqrtFn (sampledBezierPoint curve i)
    (sampledBezierPoint curve (i + 1))

/-- The `arc_length_parametrization` array: the windows loop stores at
index `i` the running sum of the first `i` window lengths, and the final
write puts the full sum (the same formula at `i = 10`) in the last slot. -/
def bezierArcLengthAt (sqrtFn : ℚ → ℚ) (curve : CubicCurve) (i : Nat) : ℚ :=
  ∑ j in Finset.range i, bezierSegmentLength sqrtFn curve j

/-- `SampledBezierCurve`; the two `[_; BEZIER_SAMPLE_RATE + 1]` arrays
are modelled as functions read at indices `0..=10`. -/
structure SampledBezierCurve where
  arc_length : ℚ
  sampled_bezier_points : Nat → BezierControlPoint
  arc_length_parametrization : Nat → ℚ

/-- `SampledBezierCurve::from_curve`. -/
def SampledBezierCurve.from_curve (sqrtFn : ℚ → ℚ) (curve : CubicCurve) : SampledBezierCurve :=
  { arc_length := bezierArcLengthAt sqrtFn curve BEZIER_SAMPLE_RATE
    sampled_bezier_points := sampledBezierPoint curve
    arc_length_parametrization := bezierArcLengthAt sqrtFn curve }

/-- The bound-finding loop of `get_bezier_percentage_from_offset`:
`for (i, param) in arc_length_parametrization.iter().take(10).enumerate()`
with `lower_bound`/`upper_bound` state and an early `break` on the first
entry strictly above the offset. -/
def scanFrom (alp : Nat → ℚ) (offset : ℚ) (i lb ub : Nat) : Nat × Nat :=
  if h : i < BEZIER_SAMPLE_RATE then
    if alp i < offset then scanFrom alp offset (i + 1) i ub
    else if alp i > offset then (lb, i)
    else scanFrom alp offset (i + 1) lb ub
  else (lb, ub)
termination_by BEZIER_SAMPLE_RATE - i

/-- `SampledBezierCurve::get_bezier_percentage_from_offset`. -/
def SampledBezierCurve.get_bezier_percentage_from_offset
    (c : SampledBezierCurve) (offset : ℚ) : ℚ :=
  let r := scanFrom c.arc_length_parametrization offset 0 0 BEZIER_SAMPLE_RATE
  let lower_bound := r.1
  let upper_bound := r.2
  let lower_bound_value := c.arc_length_parametrization lower_bound
  let upper_bound_value := c.arc_length_parametrization upper_bound
  let interpolate_percent := (offset - lower_bound_value) / (upper_bound_value - lower_bound_value)
  let lower_bound_percent := (lower_bound : ℚ) / (BEZIER_SAMPLE_RATE : ℚ)
  let upper_bound_percent := (upper_bound : ℚ) / (BEZIER_SAMPLE_RATE : ℚ)
  lower_bound_percent + ((upper_bound_percent - lower_bound_percent) * interpolate_percent)

/-- A cubic whose four control points are collinear and evenly spaced:
`p`, `p + d`, `p + 2d`, `p + 3d` (the straight-line "curve" of the
spec's Bezier property). -/
def lineCurve (p d : BezierControlPoint) : CubicCurve :=
  ⟨p, ⟨p.x + d.x, p.y + d.y⟩, ⟨p.x + 2 * d.x, p.y + 2 * d.y⟩,
    ⟨p.x + 3 * d.x, p.y + 3 * d.y⟩⟩

/-- A trivial tessellation oracle producing empty vertex/index streams;
used to instantiate theorems at concrete inputs. -/
def trivialExtTess : ExtTess :=
  { fillPolygon := fun _ _ => ([], [])
    strokePolygon := fun _ _ _ => ([], [])
    fillCircle := fun _ _ => ([], [])
    strokeCircle := fun _ _ _ => ([], [])
    fillRoundedRectangle := fun _ => ([], [])
    strokeRoundedRectangle := fun _ _ => ([], []) }

/-- A concrete square-root table adequate for the horizontal unit-step
line curve: the only squared distance that occurs is `9/100`, whose root
is `3/10`. Used to instantiate Bezier theorems at concrete inputs. -/
def sqrtW : ℚ → ℚ := fun v => if v = 9/100 then 3/10 else 0

/-- A concrete stand-in for `Tree::from_str` that rejects every input
(e.g. every input is malformed); used to instantiate theorems. -/
def parseTreeFailW : String → Except SvgErrorM UsvgTree := fun _ => Except.error ⟨0⟩

/-- The common length of every sampled segment of the straight-line
curve `lineCurve p d`: consecutive samples differ by `(3/10) · d`. -/
def lineSegLen (sqrtFn : ℚ → ℚ) (d : BezierControlPoint) : ℚ :=
  sqrtFn ((3/10 * d.x) ^ 2 + (3/10 * d.y) ^ 2)

/-! ## Theorems -/

theorem alistLookup_cons {α : Type} (a : Nat) (b : α) (tl : AListT α) (k : Nat) :
    alistLookup ((a, b) :: tl) k
      = if a = k then Option.some b else alistLookup tl k := rfl

theorem alistRemove_cons {α : Type} (a : Nat) (b : α) (tl : AListT α) (k : Nat) :
    alistRemove ((a, b) :: tl) k
      = if a = k then alistRemove tl k else (a, b) :: alistRemove tl k := rfl

theorem alistLookup_remove {α : Type} (l : AListT α) (k k2 : Nat) :
    alistLookup (alistRemove l k) k2 =
      if k2 = k then Option.none else alistLookup l k2 := by
  induction l with
  | nil => simp [alistRemove, alistLookup]
  | cons hd tl ih =>
    obtain ⟨a, b⟩ := hd
    rw [alistRemove_cons]
    by_cases hak : a = k
    · rw [if_pos hak, ih, alistLookup_cons]
      by_cases h2 : k2 = k
      · rw [if_pos h2, if_pos h2]
      · rw [if_neg h2, if_neg h2, if_neg (fun hh : a = k2 => h2 (hh.symm.trans hak))]
    · rw [if_neg hak, alistLookup_cons, alistLookup_cons]
      by_cases h2 : a = k2
      · rw [if_pos h2, if_neg (fun hh : k2 = k => hak (h2.trans hh)), if_pos h2]
      · rw [if_neg h2, ih]
        by_cases h3 : k2 = k
        · rw [if_pos h3, if_pos h3]
        · rw [if_neg h3, if_neg h3, if_neg h2]

theorem alistLookup_insert {α : Type} (l : AListT α) (k k2 : Nat) (v : α) :
    alistLookup (alistInsert l k v) k2 =
      if k2 = k then Option.some v else alistLookup l k2 := by
  unfold alistInsert
  show (if k = k2 then Option.some v else alistLookup (alistRemove l k) k2) = _
  rw [alistLookup_remove]
  by_cases h2 : k2 = k
  · rw [if_pos h2.symm, if_pos h2]
  · rw [if_neg (fun hh : k = k2 => h2 hh.symm), if_neg h2, if_neg h2]

theorem alistRemove_of_lookup_none {α : Type} (l : AListT α) (k : Nat)
    (h : alistLookup l k = Option.none) : alistRemove l k = l := by
  induction l with
  | nil => rfl
  | cons hd tl ih =>
    obtain ⟨a, b⟩ := hd
    unfold alistLookup at h
    by_cases hak : a = k
    · rw [if_pos hak] at h
      exact absurd h (by simp)
    · rw [if_neg hak] at h
      unfold alistRemove
      rw [if_neg hak, ih h]

theorem alistRemove_idem {α : Type} (l : AListT α) (k : Nat) :
    alistRemove (alistRemove l k) k = alistRemove l k := by
  apply alistRemove_of_lookup_none
  rw [alistLookup_remove]
  simp

theorem ratFloor_eq_intFloor (q : ℚ) : Rat.floor q = ⌊q⌋ := by
  rw [Rat.floor_def' q, Rat.floor_def]

theorem f32ToUsize_natCast (n : Nat) : f32ToUsize ((n : ℚ)) = n := by
  unfold f32ToUsize
  rw [ratFloor_eq_intFloor, Int.floor_natCast]
  simp

/-- C6: the default `SvgStrokeOptions` stores its scalars as the value
times 1000 rounded to an integer — `line_width = 1.0` is stored as the
integer `1000`, `miter_limit = 4.0` as `4000`, `tolerance = 0.1` as
`100` (for these values the truncating `as usize` cast agrees with
rounding) — and the `Into<StrokeOptions>` conversion used for
tessellation divides by 1000, reproducing exactly `1.0`, `4.0` and
`0.1`. -/
theorem C6_stroke_options_quantization :
    SvgStrokeOptions.default.line_width = 1000 ∧
    SvgStrokeOptions.default.miter_limit = 4000 ∧
    SvgStrokeOptions.default.tolerance = 100 ∧
    (SvgStrokeOptions.default.intoStrokeOptions).line_width = 1 ∧
    (SvgStrokeOptions.default.intoStrokeOptions).miter_limit = 4 ∧
    (SvgStrokeOptions.default.intoStrokeOptions).tolerance = 1/10 := by
  have h1 : f32ToUsize (1 * 1000) = 1000 := by
    rw [show ((1 : ℚ) * 1000) = ((1000 : Nat) : ℚ) by norm_num, f32ToUsize_natCast]
  have h4 : f32ToUsize (4 * 1000) = 4000 := by
    rw [show ((4 : ℚ) * 1000) = ((4000 : Nat) : ℚ) by norm_num, f32ToUsize_natCast]
  have ht : f32ToUsize ((1/10) * 1000) = 100 := by
    rw [show ((1 : ℚ)/10 * 1000) = ((100 : Nat) : ℚ) by norm_num, f32ToUsize_natCast]
  have e1 : SvgStrokeOptions.default.line_width = 1000 := h1
  have e4 : SvgStrokeOptions.default.miter_limit = 4000 := h4
  have et : SvgStrokeOptions.default.tolerance = 100 := ht
  refine ⟨e1, e4, et, ?_, ?_, ?_⟩
  · show ((SvgStrokeOptions.default.line_width : ℚ)) / 1000 = 1
    rw [e1]; norm_num
  · show ((SvgStrokeOptions.default.miter_limit : ℚ)) / 1000 = 4
    rw [e4]; norm_num
  · show ((SvgStrokeOptions.default.tolerance : ℚ)) / 1000 = 1/10
    rw [et]; norm_num

/-- C9: the `PartialEq` implementation of `SvgCallbacks` defines `eq` as
the unconditional self-call `self == rhs`; in the fuel-indexed embedding
every fuel amount is exhausted without producing an answer, for every
pair of values — the comparison never terminates and admits no total
unfolding. -/
theorem C9_callbacks_eq_never_terminates (C : Type) (n : Nat)
    (a b : SvgCallbacks C) : svgCallbacksEqFuel C n a b = Option.none := by
  induction n with
  | zero => rfl
  | succ n ih => exact ih

/-- C7: in every tessellation vertex constructor — fill and stroke, for
polygons, circles and rounded rectangles alike — the produced vertex's
normal is the pair (tessellator-provided normal X, vertex position Y);
and the fill geometry of `SvgLayerType::tesselate` is exactly the
external vertex stream mapped through that constructor. -/
theorem C7_vertex_normal_takes_position_y (vf : FillVertexT) (vs : StrokeVertexT)
    (ext : ExtTess) (p : List PathEventM) (c : SvgCircle) (r : SvgRect)
    (tol : ℚ) (so : Option SvgStrokeOptions) :
    (polygonFillVertexCtor vf).normal = (vf.normal.1, vf.position.2) ∧
    (circleFillVertexCtor vf).normal = (vf.normal.1, vf.position.2) ∧
    (rectFillVertexCtor vf).normal = (vf.normal.1, vf.position.2) ∧
    (polygonStrokeVertexCtor vs).normal = (vs.normal.1, vs.position.2) ∧
    (circleStrokeVertexCtor vs).normal = (vs.normal.1, vs.position.2) ∧
    (rectStrokeVertexCtor vs).normal = (vs.normal.1, vs.position.2) ∧
    ((SvgLayerType.Polygon p).tesselate ext tol so).1.vertices
      = (ext.fillPolygon p tol).1.map polygonFillVertexCtor ∧
    ((SvgLayerType.Circle c).tesselate ext tol so).1.vertices
      = (ext.fillCircle (c.center_x, c.center_y) c.radius).1.map circleFillVertexCtor ∧
    ((SvgLayerType.Rect r).tesselate ext tol so).1.vertices
      = (ext.fillRoundedRectangle r).1.map rectFillVertexCtor := by
  refine ⟨rfl, rfl, rfl, rfl, rfl, rfl, ?_, ?_, ?_⟩ <;>
    cases so <;> simp [SvgLayerType.tesselate]

/-- C8: `quick_circles` on an empty circle slice returns a `Direct`
layer resource whose fill mesh has no vertices and no indices and whose
stroke is absent — no error, no panic. -/
theorem C8_quick_circles_empty (ext : ExtTess) (fill_color : ColorU) :
    quickCircles ext [] fill_color =
      SvgLayerResource.Direct (SvgStyle.filled fill_color)
        (some ⟨[], []⟩) none := rfl

/-- C10: `quick_lines` filters with `line.len() > 2`, so every input
line with fewer than three points — in particular a two-point straight
segment — is silently dropped and contributes nothing to the result. -/
theorem C10_quick_lines_drops_short_lines (ext : ExtTess) (line : List (ℚ × ℚ))
    (rest : List (List (ℚ × ℚ))) (stroke_color : ColorU)
    (so : Option SvgStrokeOptions) (h : line.length ≤ 2) :
    quickLines ext (line :: rest) stroke_color so
      = quickLines ext rest stroke_color so := by
  unfold quickLines
  rw [List.filter_cons_of_neg (by simp; omega)]

theorem C10_quick_lines_drops_short_lines_witness :
    (([((0:ℚ), (0:ℚ)), (1, 1)] : List (ℚ × ℚ)).length ≤ 2) ∧
    quickLines trivialExtTess [[((0:ℚ), (0:ℚ)), (1, 1)]] ⟨0, 0, 0, 255⟩ none
      = quickLines trivialExtTess [] ⟨0, 0, 0, 255⟩ none :=
  ⟨by decide,
   C10_quick_lines_drops_short_lines trivialExtTess [((0:ℚ), (0:ℚ)), (1, 1)] []
     ⟨0, 0, 0, 255⟩ none (by decide)⟩

theorem tesselateLayerData_snd_isSome (ext : ExtTess) (d : LayerTypeM) (tol : ℚ)
    (so : Option SvgStrokeOptions) :
    (tesselateLayerData ext d tol so).2.isSome = so.isSome := by
  cases so <;> simp [tesselateLayerData]

theorem cacheConsistent_empty : cacheConsistent SvgCacheM.empty := by
  refine ⟨?_, ?_, ?_⟩ <;> intro id <;> simp [SvgCacheM.empty, alistLookup]

theorem add_layer_preserves_consistency (c : SvgCacheM) (hinv : cacheConsistent c)
    (ext : ExtTess) (nid : Nat) (layer : SvgLayerM) :
    cacheConsistent (c.add_layer ext nid layer).1 := by
  obtain ⟨h1, h2, h3⟩ := hinv
  rcases htld : (tesselateLayerData ext layer.data DEFAULT_GLYPH_TOLERANCE
    (layer.style.stroke.map (fun s => s.2))).2 with _ | sb
  all_goals
    simp only [SvgCacheM.add_layer, htld]
    refine ⟨?_, ?_, ?_⟩
  -- t.2 = none: the layer's style has no stroke
  · intro id layer2 hl
    rw [alistLookup_insert] at hl
    by_cases hid : id = nid
    · rw [if_pos hid] at hl
      have hlay : layer2 = layer := by cases hl; rfl
      constructor
      · rw [alistLookup_insert, if_pos hid]; rfl
      · intro hstroke
        -- no stroke mesh was produced, so the layer has no stroke
        have := tesselateLayerData_snd_isSome ext layer.data DEFAULT_GLYPH_TOLERANCE
          (layer.style.stroke.map (fun s => s.2))
        rw [htld] at this
        simp at this
        rw [hlay] at hstroke
        rw [this] at hstroke
        cases hstroke
    · rw [if_neg hid] at hl
      obtain ⟨hg, hs⟩ := h1 id layer2 hl
      constructor
      · rw [alistLookup_insert, if_neg hid]; exact hg
      · exact hs
  · intro id hv
    rw [alistLookup_insert]
    by_cases hid : id = nid
    · rw [if_pos hid]; rfl
    · rw [if_neg hid]; exact h2 id hv
  · exact h3
  -- t.2 = some sb: a stroke mesh was produced
  · intro id layer2 hl
    rw [alistLookup_insert] at hl
    by_cases hid : id = nid
    · rw [if_pos hid] at hl
      constructor
      · rw [alistLookup_insert, if_pos hid]; rfl
      · intro _
        rw [alistLookup_insert, if_pos hid]; rfl
    · rw [if_neg hid] at hl
      obtain ⟨hg, hs⟩ := h1 id layer2 hl
      constructor
      · rw [alistLookup_insert, if_neg hid]; exact hg
      · intro hstroke
        rw [alistLookup_insert, if_neg hid]; exact hs hstroke
  · intro id hv
    rw [alistLookup_insert]
    by_cases hid : id = nid
    · rw [if_pos hid]; rfl
    · rw [if_neg hid]; exact h2 id hv
  · intro id hv
    rw [alistLookup_insert]
    by_cases hid : id = nid
    · rw [if_pos hid]; rfl
    · rw [if_neg hid]; exact h3 id hv

theorem delete_layer_preserves_consistency (c : SvgCacheM) (hinv : cacheConsistent c)
    (id0 : Nat) : cacheConsistent (c.delete_layer id0) := by
  obtain ⟨h1, h2, h3⟩ := hinv
  simp only [SvgCacheM.delete_layer]
  refine ⟨?_, ?_, ?_⟩
  · intro id layer hl
    rw [alistLookup_remove] at hl
    by_cases hid : id = id0
    · rw [if_pos hid] at hl; cases hl
    · rw [if_neg hid] at hl
      obtain ⟨hg, hs⟩ := h1 id layer hl
      constructor
      · rw [alistLookup_remove, if_neg hid]; exact hg
      · intro hstroke
        rw [alistLookup_remove, if_neg hid]; exact hs hstroke
  · intro id hv
    rw [alistLookup_remove] at hv ⊢
    by_cases hid : id = id0
    · rw [if_pos hid] at hv; cases hv
    · rw [if_neg hid] at hv ⊢; exact h2 id hv
  · intro id hv
    rw [alistLookup_remove] at hv ⊢
    by_cases hid : id = id0
    · rw [if_pos hid] at hv; cases hv
    · rw [if_neg hid] at hv ⊢; exact h3 id hv

theorem clear_all_layers_preserves_consistency (c : SvgCacheM) :
    cacheConsistent c.clear_all_layers := by
  refine ⟨?_, ?_, ?_⟩ <;> intro id <;>
    simp [SvgCacheM.clear_all_layers, alistLookup]

theorem get_vertices_preserves_consistency (c : SvgCacheM) (hinv : cacheConsistent c)
    (id0 : Nat) : cacheConsistent (c.get_vertices_and_indices id0).1 := by
  obtain ⟨h1, h2, h3⟩ := hinv
  rcases hv0 : alistLookup c.vertex_index_buffer_cache id0 with _ | w
  · rcases hg0 : alistLookup c.gpu_ready_to_upload_cache id0 with _ | s
    · simp only [SvgCacheM.get_vertices_and_indices, fillVertexBufferCache, hv0, hg0]
      exact ⟨h1, h2, h3⟩
    · simp only [SvgCacheM.get_vertices_and_indices, fillVertexBufferCache, hv0, hg0]
      refine ⟨h1, ?_, h3⟩
      intro id hv
      rw [alistLookup_insert] at hv
      by_cases hid : id = id0
      · rw [hid, hg0]; rfl
      · rw [if_neg hid] at hv; exact h2 id hv
  · simp only [SvgCacheM.get_vertices_and_indices, fillVertexBufferCache, hv0]
    exact ⟨h1, h2, h3⟩

theorem get_stroke_vertices_preserves_consistency (c : SvgCacheM)
    (hinv : cacheConsistent c) (id0 : Nat) :
    cacheConsistent (c.get_stroke_vertices_and_indices id0).1 := by
  obtain ⟨h1, h2, h3⟩ := hinv
  rcases hv0 : alistLookup c.stroke_vertex_index_buffer_cache id0 with _ | w
  · rcases hg0 : alistLookup c.stroke_gpu_ready_to_upload_cache id0 with _ | s
    · simp only [SvgCacheM.get_stroke_vertices_and_indices, fillVertexBufferCache, hv0, hg0]
      exact ⟨h1, h2, h3⟩
    · simp only [SvgCacheM.get_stroke_vertices_and_indices, fillVertexBufferCache, hv0, hg0]
      refine ⟨h1, h2, ?_⟩
      intro id hv
      rw [alistLookup_insert] at hv
      by_cases hid : id = id0
      · rw [hid, hg0]; rfl
      · rw [if_neg hid] at hv; exact h3 id hv
  · simp only [SvgCacheM.get_stroke_vertices_and_indices, fillVertexBufferCache, hv0]
    exact ⟨h1, h2, h3⟩

/-- C2: every public cache operation — `add_layer`, `delete_layer`,
`clear_all_layers`, and the lazy GPU-buffer materialization performed by
`get_vertices_and_indices` / `get_stroke_vertices_and_indices` —
preserves the cache invariant: every key of `layers` has a CPU fill
mesh (and a CPU stroke mesh when the layer's style has a stroke), and
each GPU buffer map's key set is contained in the corresponding CPU
mesh map's key set. -/
theorem C2_cache_operations_preserve_consistency (c : SvgCacheM)
    (hinv : cacheConsistent c) :
    (∀ (ext : ExtTess) (nid : Nat) (layer : SvgLayerM),
        cacheConsistent (c.add_layer ext nid layer).1) ∧
    (∀ id, cacheConsistent (c.delete_layer id)) ∧
    cacheConsistent c.clear_all_layers ∧
    (∀ id, cacheConsistent (c.get_vertices_and_indices id).1) ∧
    (∀ id, cacheConsistent (c.get_stroke_vertices_and_indices id).1) :=
  ⟨fun ext nid layer => add_layer_preserves_consistency c hinv ext nid layer,
   fun id => delete_layer_preserves_consistency c hinv id,
   clear_all_layers_preserves_consistency c,
   fun id => get_vertices_preserves_consistency c hinv id,
   fun id => get_stroke_vertices_preserves_consistency c hinv id⟩

theorem C2_cache_operations_preserve_consistency_witness :
    cacheConsistent SvgCacheM.empty ∧
    ((∀ (ext : ExtTess) (nid : Nat) (layer : SvgLayerM),
        cacheConsistent (SvgCacheM.empty.add_layer ext nid layer).1) ∧
     (∀ id, cacheConsistent (SvgCacheM.empty.delete_layer id)) ∧
     cacheConsistent SvgCacheM.empty.clear_all_layers ∧
     (∀ id, cacheConsistent (SvgCacheM.empty.get_vertices_and_indices id).1) ∧
     (∀ id, cacheConsistent (SvgCacheM.empty.get_stroke_vertices_and_indices id).1)) :=
  ⟨cacheConsistent_empty,
   C2_cache_operations_preserve_consistency SvgCacheM.empty cacheConsistent_empty⟩

theorem delete_layer_idem (c : SvgCacheM) (id : Nat) :
    (c.delete_layer id).delete_layer id = c.delete_layer id := by
  simp only [SvgCacheM.delete_layer]
  congr 1 <;> rw [alistRemove_idem]

/-- C3: `delete_layer(id)` removes the id from the logical layer map,
both CPU mesh maps and both GPU buffer maps; deleting an id that is not
present is a no-op rather than an error (deletion is total and
idempotent, and on the empty cache it is the identity); and after the
deletion both derived-map lookups (`get_vertices_and_indices`,
`get_stroke_vertices_and_indices`) answer "not found" for that id
without touching the cache. -/
theorem C3_delete_layer_removes_id_everywhere (c : SvgCacheM) (id : Nat) :
    alistLookup (c.delete_layer id).layers id = Option.none ∧
    alistLookup (c.delete_layer id).gpu_ready_to_upload_cache id = Option.none ∧
    alistLookup (c.delete_layer id).stroke_gpu_ready_to_upload_cache id = Option.none ∧
    alistLookup (c.delete_layer id).vertex_index_buffer_cache id = Option.none ∧
    alistLookup (c.delete_layer id).stroke_vertex_index_buffer_cache id = Option.none ∧
    (c.delete_layer id).delete_layer id = c.delete_layer id ∧
    SvgCacheM.empty.delete_layer id = SvgCacheM.empty ∧
    ((c.delete_layer id).get_vertices_and_indices id).2 = Option.none ∧
    ((c.delete_layer id).get_stroke_vertices_and_indices id).2 = Option.none ∧
    ((c.delete_layer id).get_vertices_and_indices id).1 = c.delete_layer id ∧
    ((c.delete_layer id).get_stroke_vertices_and_indices id).1 = c.delete_layer id := by
  have hl : alistLookup (c.delete_layer id).layers id = Option.none := by
    simp [SvgCacheM.delete_layer, alistLookup_remove]
  have hg : alistLookup (c.delete_layer id).gpu_ready_to_upload_cache id = Option.none := by
    simp [SvgCacheM.delete_layer, alistLookup_remove]
  have hsg : alistLookup (c.delete_layer id).stroke_gpu_ready_to_upload_cache id
      = Option.none := by
    simp [SvgCacheM.delete_layer, alistLookup_remove]
  have hv : alistLookup (c.delete_layer id).vertex_index_buffer_cache id = Option.none := by
    simp [SvgCacheM.delete_layer, alistLookup_remove]
  have hsv : alistLookup (c.delete_layer id).stroke_vertex_index_buffer_cache id
      = Option.none := by
    simp [SvgCacheM.delete_layer, alistLookup_remove]
  refine ⟨hl, hg, hsg, hv, hsv, delete_layer_idem c id, rfl, ?_, ?_, ?_, ?_⟩
  · simp only [SvgCacheM.get_vertices_and_indices, fillVertexBufferCache, hv, hg]
  · simp only [SvgCacheM.get_stroke_vertices_and_indices, fillVertexBufferCache, hsv, hsg]
  · simp only [SvgCacheM.get_vertices_and_indices, fillVertexBufferCache, hv, hg]
  · simp only [SvgCacheM.get_stroke_vertices_and_indices, fillVertexBufferCache, hsv, hsg]

/-- C1 (code bug): the claim says a malformed SVG source surfaces as a
typed `SvgParseError` returned to the caller of `add_svg`, with the cache
left unmodified. The declared types agree (`add_svg` returns
`Result<Vec<SvgLayerId>, SvgParseError>`, and `SvgParseError`
distinguishes syntax from I/O failure), but the body of
`svg_to_lyon::parse_from` calls `Tree::from_str(..).unwrap()`, so a
parse failure panics — aborting the process before any cache mutation —
and the typed error is never constructed: whenever the external parser
fails, `add_svg` panics, and whenever `add_svg` returns at all, its
result is never the `Err` case. -/
theorem C1_add_svg_panics_on_parse_error
    (parseTree : String → Except SvgErrorM UsvgTree) (ext : ExtTess)
    (c : SvgCacheM) (gen : IdGen) (input : String) (e : SvgErrorM)
    (h : parseTree input = Except.error e) :
    c.add_svg ext parseTree gen input = Outcome.panicked ∧
    (∀ (c2 : SvgCacheM) (gen2 : IdGen) (input2 : String) r,
        c2.add_svg ext parseTree gen2 input2 = Outcome.ok r →
        ∀ e2, r.1 ≠ Except.error e2) := by
  constructor
  · simp only [SvgCacheM.add_svg, parse_from, h]
  · intro c2 gen2 input2 r hr e2
    rcases hp : parseTree input2 with e3 | tree
    · simp only [SvgCacheM.add_svg, parse_from, hp] at hr
      cases hr
    · simp only [SvgCacheM.add_svg, parse_from, hp] at hr
      cases hr.symm
      simp

theorem C1_add_svg_panics_on_parse_error_witness :
    (parseTreeFailW "<svg" = Except.error ⟨0⟩) ∧
    (SvgCacheM.empty.add_svg trivialExtTess parseTreeFailW ⟨0, 0, 0⟩ "<svg"
        = Outcome.panicked ∧
     (∀ (c2 : SvgCacheM) (gen2 : IdGen) (input2 : String) r,
        c2.add_svg trivialExtTess parseTreeFailW gen2 input2 = Outcome.ok r →
        ∀ e2, r.1 ≠ Except.error e2)) :=
  ⟨rfl, C1_add_svg_panics_on_parse_error parseTreeFailW trivialExtTess
    SvgCacheM.empty ⟨0, 0, 0⟩ "<svg" ⟨0⟩ rfl⟩

theorem joinGo_spec (input : List VertexBuffersM) :
    ∀ (last : Nat) (vbuf : List SvgVert) (ibuf : List Nat),
    (∀ run ∈ rebasedRuns input last, ∀ i ∈ run, i < GL_RESTART_INDEX) →
    joinGo input last vbuf ibuf =
      ⟨vbuf ++ (input.map (fun m => m.vertices)).flatten,
       ibuf ++ ((rebasedRuns input last).map (fun run => run ++ [GL_RESTART_INDEX])).flatten⟩ := by
  induction input with
  | nil => intro last vbuf ibuf _; simp [joinGo, rebasedRuns]
  | cons m rest ih =>
    intro last vbuf ibuf hb
    have hrun : ∀ i ∈ m.indices.map (fun i => i + last), i < GL_RESTART_INDEX :=
      hb _ (by simp [rebasedRuns])
    have hmap : m.indices.map (fun i => (i + last) % 2 ^ 32)
        = m.indices.map (fun i => i + last) := by
      apply List.map_congr_left
      intro i hi
      have hlt : i + last < GL_RESTART_INDEX := hrun _ (List.mem_map_of_mem _ hi)
      have : i + last < 2 ^ 32 := lt_trans hlt (by norm_num [GL_RESTART_INDEX])
      exact Nat.mod_eq_of_lt this
    have hrest : ∀ run ∈ rebasedRuns rest (last + m.vertices.length),
        ∀ i ∈ run, i < GL_RESTART_INDEX := by
      intro run hmem
      exact hb run (by simp [rebasedRuns, hmem])
    show joinGo rest (last + m.vertices.length) (vbuf ++ m.vertices)
        (ibuf ++ (m.indices.map (fun i => (i + last) % 2 ^ 32) ++ [GL_RESTART_INDEX])) = _
    rw [hmap, ih (last + m.vertices.length) _ _ hrest]
    simp [rebasedRuns]

theorem splitOnSep_append_sep (s : Nat) (l rest : List Nat)
    (hl : ∀ x ∈ l, x ≠ s) :
    splitOnSep s (l ++ s :: rest) = l :: splitOnSep s rest := by
  induction l with
  | nil => simp [splitOnSep]
  | cons x xs ih =>
    have hx : x ≠ s := hl x (by simp)
    have hxs : ∀ y ∈ xs, y ≠ s := fun y hy => hl y (by simp [hy])
    show splitOnSep s (x :: (xs ++ s :: rest)) = _
    rw [show splitOnSep s (x :: (xs ++ s :: rest))
        = if x = s then [] :: splitOnSep s (xs ++ s :: rest)
          else match splitOnSep s (xs ++ s :: rest) with
            | [] => [[x]]
            | r :: rs => (x :: r) :: rs from rfl]
    rw [if_neg hx, ih hxs]

theorem splitOnSep_joined_runs (s : Nat) (runs : List (List Nat))
    (h : ∀ run ∈ runs, ∀ x ∈ run, x ≠ s) :
    splitOnSep s ((runs.map (fun run => run ++ [s])).flatten) = runs ++ [[]] := by
  induction runs with
  | nil => simp [splitOnSep]
  | cons r rs ih =>
    have hr : ∀ x ∈ r, x ≠ s := h r (by simp)
    have hrs : ∀ run ∈ rs, ∀ x ∈ run, x ≠ s := fun run hrun => h run (by simp [hrun])
    show splitOnSep s ((r ++ [s]) ++ (rs.map (fun run => run ++ [s])).flatten) = _
    rw [List.append_assoc, List.singleton_append, splitOnSep_append_sep s r _ hr, ih hrs]
    simp

/-- C4 (amended): provided every rebased index — a source index plus the
exact total vertex count of all prior meshes — stays below the restart
sentinel `0xFFFFFFFF` (so the wrapping `u32` addition is exact and no
rebased index collides with the sentinel), `join_vertex_buffers`
concatenates the vertex lists in order, emits each source mesh's indices
rebased by the running vertex count with exactly one restart sentinel
appended after each mesh, and splitting the output index list at the
sentinel recovers exactly the rebased index runs in submission order
(followed by the empty run after the final sentinel). -/
theorem C4_join_vertex_buffers_round_trip (input : List VertexBuffersM)
    (hb : ∀ run ∈ rebasedRuns input 0, ∀ i ∈ run, i < GL_RESTART_INDEX) :
    (joinVertexBuffers input).vertices = (input.map (fun m => m.vertices)).flatten ∧
    (joinVertexBuffers input).indices
      = ((rebasedRuns input 0).map (fun run => run ++ [GL_RESTART_INDEX])).flatten ∧
    splitOnSep GL_RESTART_INDEX (joinVertexBuffers input).indices
      = rebasedRuns input 0 ++ [[]] := by
  have hspec := joinGo_spec input 0 [] [] hb
  unfold joinVertexBuffers
  rw [hspec]
  refine ⟨by simp, by simp, ?_⟩
  simp only [List.nil_append]
  exact splitOnSep_joined_runs GL_RESTART_INDEX (rebasedRuns input 0)
    (fun run hrun x hx => Nat.ne_of_lt (hb run hrun x hx))

theorem C4_join_vertex_buffers_round_trip_witness :
    (∀ run ∈ rebasedRuns
        [⟨[⟨(0, 0), (0, 0)⟩, ⟨(1, 0), (0, 0)⟩], [0, 1]⟩, ⟨[⟨(2, 0), (0, 0)⟩], [0]⟩] 0,
      ∀ i ∈ run, i < GL_RESTART_INDEX) ∧
    ((joinVertexBuffers
        [⟨[⟨(0, 0), (0, 0)⟩, ⟨(1, 0), (0, 0)⟩], [0, 1]⟩, ⟨[⟨(2, 0), (0, 0)⟩], [0]⟩]).vertices
      = ([⟨[⟨(0, 0), (0, 0)⟩, ⟨(1, 0), (0, 0)⟩], [0, 1]⟩,
          (⟨[⟨(2, 0), (0, 0)⟩], [0]⟩ : VertexBuffersM)].map (fun m => m.vertices)).flatten ∧
     (joinVertexBuffers
        [⟨[⟨(0, 0), (0, 0)⟩, ⟨(1, 0), (0, 0)⟩], [0, 1]⟩, ⟨[⟨(2, 0), (0, 0)⟩], [0]⟩]).indices
      = ((rebasedRuns
          [⟨[⟨(0, 0), (0, 0)⟩, ⟨(1, 0), (0, 0)⟩], [0, 1]⟩, ⟨[⟨(2, 0), (0, 0)⟩], [0]⟩] 0).map
            (fun run => run ++ [GL_RESTART_INDEX])).flatten ∧
     splitOnSep GL_RESTART_INDEX
        (joinVertexBuffers
          [⟨[⟨(0, 0), (0, 0)⟩, ⟨(1, 0), (0, 0)⟩], [0, 1]⟩, ⟨[⟨(2, 0), (0, 0)⟩], [0]⟩]).indices
      = rebasedRuns
          [⟨[⟨(0, 0), (0, 0)⟩, ⟨(1, 0), (0, 0)⟩], [0, 1]⟩, ⟨[⟨(2, 0), (0, 0)⟩], [0]⟩] 0
          ++ [[]]) :=
  ⟨by decide,
   C4_join_vertex_buffers_round_trip
     [⟨[⟨(0, 0), (0, 0)⟩, ⟨(1, 0), (0, 0)⟩], [0, 1]⟩, ⟨[⟨(2, 0), (0, 0)⟩], [0]⟩]
     (by decide)⟩

/-- C4 counterexample to the claim as stated (universally over all
inputs): a first mesh holding `2^32 - 1` vertices and no indices makes
the second mesh's index 0 rebase — through the wrapping `u32`
addition — to exactly the restart sentinel, so splitting the joined
index list at the sentinel does not recover the rebased runs. -/
theorem C4_round_trip_counterexample :
    ¬ (splitOnSep GL_RESTART_INDEX
        (joinVertexBuffers
          [⟨List.replicate (2 ^ 32 - 1) ⟨(0, 0), (0, 0)⟩, []⟩, ⟨[], [0]⟩]).indices
      = rebasedRuns
          [⟨List.replicate (2 ^ 32 - 1) ⟨(0, 0), (0, 0)⟩, []⟩, ⟨[], [0]⟩] 0 ++ [[]]) := by
  intro h
  have hlen : (List.replicate (2 ^ 32 - 1) (⟨(0, 0), (0, 0)⟩ : SvgVert)).length
      = 2 ^ 32 - 1 := List.length_replicate _ _
  have hI : ∀ L : List SvgVert, L.length = 2 ^ 32 - 1 →
      (joinVertexBuffers [⟨L, []⟩, ⟨[], [0]⟩]).indices
        = [GL_RESTART_INDEX, GL_RESTART_INDEX, GL_RESTART_INDEX] := by
    intro L hL
    simp [joinVertexBuffers, joinGo, hL, GL_RESTART_INDEX]
  have hR : ∀ L : List SvgVert, L.length = 2 ^ 32 - 1 →
      rebasedRuns [⟨L, []⟩, ⟨[], [0]⟩] 0 ++ [[]] = [[], [2 ^ 32 - 1], []] := by
    intro L hL
    simp [rebasedRuns, hL]
  have hsplit : splitOnSep GL_RESTART_INDEX
      [GL_RESTART_INDEX, GL_RESTART_INDEX, GL_RESTART_INDEX] = [[], [], [], []] := by
    simp [splitOnSep]
  rw [hI _ hlen, hR _ hlen, hsplit] at h
  simp at h

theorem scanFrom_stop (alp : Nat → ℚ) (off : ℚ) (i lb ub : Nat)
    (hi : ¬ i < BEZIER_SAMPLE_RATE) :
    scanFrom alp off i lb ub = (lb, ub) := by
  rw [scanFrom]
  rw [dif_neg hi]

theorem scanFrom_lt (alp : Nat → ℚ) (off : ℚ) (i lb ub : Nat)
    (hi : i < BEZIER_SAMPLE_RATE) (hlt : alp i < off) :
    scanFrom alp off i lb ub = scanFrom alp off (i + 1) i ub := by
  rw [scanFrom]
  rw [dif_pos hi, if_pos hlt]

theorem scanFrom_gt (alp : Nat → ℚ) (off : ℚ) (i lb ub : Nat)
    (hi : i < BEZIER_SAMPLE_RATE) (hnlt : ¬ alp i < off) (hgt : alp i > off) :
    scanFrom alp off i lb ub = (lb, i) := by
  rw [scanFrom]
  rw [dif_pos hi, if_neg hnlt, if_pos hgt]

theorem scanFrom_skip_eq (alp : Nat → ℚ) (off : ℚ) (i lb ub : Nat)
    (hi : i < BEZIER_SAMPLE_RATE) (hnlt : ¬ alp i < off) (hngt : ¬ alp i > off) :
    scanFrom alp off i lb ub = scanFrom alp off (i + 1) lb ub := by
  rw [scanFrom]
  rw [dif_pos hi, if_neg hnlt, if_neg hngt]

theorem scanFrom_all_lt (alp : Nat → ℚ) (off : ℚ) :
    ∀ (k i lb ub : Nat), i + k = 10 →
    (∀ j, i ≤ j → j < 10 → alp j < off) →
    scanFrom alp off i lb ub = (if k = 0 then lb else 9, ub) := by
  intro k
  induction k with
  | zero =>
    intro i lb ub hik _
    rw [scanFrom_stop alp off i lb ub (by simp [BEZIER_SAMPLE_RATE]; omega)]
    simp
  | succ k ih =>
    intro i lb ub hik hall
    have hi : i < 10 := by omega
    rw [scanFrom_lt alp off i lb ub (by simpa [BEZIER_SAMPLE_RATE] using hi)
      (hall i le_rfl hi)]
    rw [ih (i + 1) i ub (by omega) (fun j hj hj10 => hall j (by omega) hj10)]
    by_cases hk : k = 0
    · have : i = 9 := by omega
      simp [hk, this]
    · simp [hk]

theorem scanFrom_skip_lead (alp : Nat → ℚ) (off : ℚ) :
    ∀ (n i lb ub : Nat), i + n ≤ 10 →
    (∀ j, i ≤ j → j < i + n → alp j < off) →
    scanFrom alp off i lb ub
      = scanFrom alp off (i + n) (if n = 0 then lb else i + n - 1) ub := by
  intro n
  induction n with
  | zero => intro i lb ub _ _; simp
  | succ n ih =>
    intro i lb ub hn hall
    have hi : i < 10 := by omega
    rw [scanFrom_lt alp off i lb ub (by simpa [BEZIER_SAMPLE_RATE] using hi)
      (hall i le_rfl (by omega))]
    rw [ih (i + 1) i ub (by omega) (fun j h1 h2 => hall j (by omega) (by omega))]
    have e1 : i + 1 + n = i + (n + 1) := by omega
    rw [e1]
    congr 1
    by_cases hk : n = 0
    · subst hk; simp
    · simp [hk]

theorem bezierArcLengthAt_zero (sqrtFn : ℚ → ℚ) (curve : CubicCurve) :
    bezierArcLengthAt sqrtFn curve 0 = 0 := by
  simp [bezierArcLengthAt]

theorem alp_strict_chain (alp : Nat → ℚ)
    (hmono : ∀ i, i < 10 → alp i < alp (i + 1)) :
    ∀ i j, i < j → j ≤ 10 → alp i < alp j := by
  intro i j
  induction j with
  | zero => omega
  | succ j ih =>
    intro hij hj
    rcases Nat.lt_succ_iff_lt_or_eq.mp hij with h | h
    · exact lt_trans (ih h (by omega)) (hmono j (by omega))
    · subst h; exact hmono i (by omega)

theorem sampledBezierPoint_lineCurve (p d : BezierControlPoint) (i : Nat)
    (hi : i ≤ 10) :
    sampledBezierPoint (lineCurve p d) i
      = ⟨p.x + 3 * ((i : ℚ) / 10) * d.x, p.y + 3 * ((i : ℚ) / 10) * d.y⟩ := by
  simp only [sampledBezierPoint, BEZIER_SAMPLE_RATE]
  by_cases h0 : i = 0
  · subst h0
    simp [lineCurve]
  · rw [if_neg h0]
    by_cases h10 : i = 10
    · subst h10
      rw [if_pos rfl]
      simp only [lineCurve, BezierControlPoint.mk.injEq]
      norm_num
    · rw [if_neg h10]
      simp only [cubic_interpolate_bezier, lineCurve, BezierControlPoint.mk.injEq]
      constructor <;> ring

theorem bezierSegmentLength_lineCurve (sqrtFn : ℚ → ℚ) (p d : BezierControlPoint)
    (i : Nat) (hi : i < 10) :
    bezierSegmentLength sqrtFn (lineCurve p d) i = lineSegLen sqrtFn d := by
  unfold bezierSegmentLength BezierControlPoint.distanceW
  rw [sampledBezierPoint_lineCurve p d i (by omega),
    sampledBezierPoint_lineCurve p d (i + 1) (by omega)]
  unfold lineSegLen
  congr 1
  push_cast
  ring

theorem bezierArcLengthAt_lineCurve (sqrtFn : ℚ → ℚ) (p d : BezierControlPoint)
    (i : Nat) (hi : i ≤ 10) :
    bezierArcLengthAt sqrtFn (lineCurve p d) i = (i : ℚ) * lineSegLen sqrtFn d := by
  unfold bezierArcLengthAt
  rw [Finset.sum_congr rfl
    (fun j hj => bezierSegmentLength_lineCurve sqrtFn p d j
      (by have := Finset.mem_range.mp hj; omega))]
  simp [Finset.sum_const, mul_comm]

theorem pct_eval (c : SampledBezierCurve) (off : ℚ) (lb ub : Nat)
    (hscan : scanFrom c.arc_length_parametrization off 0 0 BEZIER_SAMPLE_RATE = (lb, ub)) :
    c.get_bezier_percentage_from_offset off
      = (lb : ℚ) / 10 + (((ub : ℚ) / 10 - (lb : ℚ) / 10)
          * ((off - c.arc_length_parametrization lb)
             / (c.arc_length_parametrization ub - c.arc_length_parametrization lb))) := by
  simp only [SampledBezierCurve.get_bezier_percentage_from_offset]
  rw [hscan]
  simp only [BEZIER_SAMPLE_RATE, Nat.cast_ofNat]

theorem line_pct (sqrtFn : ℚ → ℚ) (p d : BezierControlPoint)
    (hpos : 0 < lineSegLen sqrtFn d) (off : ℚ) (hoff : 0 ≤ off) :
    (SampledBezierCurve.from_curve sqrtFn (lineCurve p d)).get_bezier_percentage_from_offset off
      = off / (10 * lineSegLen sqrtFn d) := by
  have hA : ∀ i : Nat, i ≤ 10 →
      (SampledBezierCurve.from_curve sqrtFn (lineCurve p d)).arc_length_parametrization i
        = (i : ℚ) * lineSegLen sqrtFn d :=
    fun i hi => bezierArcLengthAt_lineCurve sqrtFn p d i hi
  have hne : lineSegLen sqrtFn d ≠ 0 := ne_of_gt hpos
  by_cases hbig : 9 * lineSegLen sqrtFn d < off
  · -- offset beyond the 9th sample: scan ends with bounds (9, 10)
    have hall : ∀ j, 0 ≤ j → j < 10 →
        (SampledBezierCurve.from_curve sqrtFn (lineCurve p d)).arc_length_parametrization j
          < off := by
      intro j _ hj
      rw [hA j (by omega)]
      have hj9 : (j : ℚ) ≤ 9 := by exact_mod_cast Nat.lt_succ_iff.mp hj
      nlinarith
    have hscan := scanFrom_all_lt
      (SampledBezierCurve.from_curve sqrtFn (lineCurve p d)).arc_length_parametrization
      off 10 0 0 10 (by norm_num) hall
    norm_num at hscan
    rw [pct_eval _ off 9 10 hscan]
    rw [hA 9 (by norm_num), hA 10 (by norm_num)]
    push_cast
    rw [show (10 : ℚ) * lineSegLen sqrtFn d - 9 * lineSegLen sqrtFn d
        = lineSegLen sqrtFn d from by ring]
    field_simp
    ring
  · push_neg at hbig
    -- offset within the table: locate the floor bracket m
    obtain ⟨m, hmz⟩ : ∃ m : Nat, (m : ℤ) = ⌊off / lineSegLen sqrtFn d⌋ :=
      ⟨(⌊off / lineSegLen sqrtFn d⌋).toNat,
        Int.toNat_of_nonneg (Int.floor_nonneg.mpr (div_nonneg hoff hpos.le))⟩
    have hml : (m : ℚ) * lineSegLen sqrtFn d ≤ off := by
      have h1 : ((m : ℚ)) ≤ off / lineSegLen sqrtFn d := by
        have := Int.floor_le (off / lineSegLen sqrtFn d)
        rw [← hmz] at this
        exact_mod_cast this
      exact (le_div_iff₀ hpos).mp h1
    have hmu : off < ((m : ℚ) + 1) * lineSegLen sqrtFn d := by
      have h2 : off / lineSegLen sqrtFn d < (m : ℚ) + 1 := by
        have := Int.lt_floor_add_one (off / lineSegLen sqrtFn d)
        rw [← hmz] at this
        exact_mod_cast this
      exact (div_lt_iff₀ hpos).mp h2
    have hm9 : m ≤ 9 := by
      have h3 : (m : ℚ) * lineSegLen sqrtFn d ≤ 9 * lineSegLen sqrtFn d :=
        le_trans hml hbig
      have h4 : (m : ℚ) ≤ 9 := le_of_mul_le_mul_right h3 hpos
      exact_mod_cast h4
    by_cases heq : off = (m : ℚ) * lineSegLen sqrtFn d
    · by_cases hm0 : m = 0
      · -- off = 0: scan skips the equal entry at 0 and breaks at 1
        have hoff0 : off = 0 := by rw [heq, hm0]; norm_num
        subst hoff0
        have h0 : (SampledBezierCurve.from_curve sqrtFn
            (lineCurve p d)).arc_length_parametrization 0 = 0 := by
          rw [hA 0 (by norm_num)]; norm_num
        have h1 : (SampledBezierCurve.from_curve sqrtFn
            (lineCurve p d)).arc_length_parametrization 1 = lineSegLen sqrtFn d := by
          rw [hA 1 (by norm_num)]; norm_num
        have hs1 := scanFrom_skip_eq
          (SampledBezierCurve.from_curve sqrtFn (lineCurve p d)).arc_length_parametrization
          0 0 0 10 (by norm_num [BEZIER_SAMPLE_RATE])
          (by rw [h0]; exact lt_irrefl 0) (by rw [h0]; exact lt_irrefl 0)
        have hs2 := scanFrom_gt
          (SampledBezierCurve.from_curve sqrtFn (lineCurve p d)).arc_length_parametrization
          0 1 0 10 (by norm_num [BEZIER_SAMPLE_RATE])
          (by rw [h1]; exact not_lt.mpr hpos.le) (by rw [h1]; exact hpos)
        rw [pct_eval _ 0 0 1 (hs1.trans hs2)]
        rw [h0, h1]
        norm_num
      · -- off = m·h with 1 ≤ m ≤ 9
        obtain ⟨M, rfl⟩ : ∃ M, m = M + 1 := ⟨m - 1, by omega⟩
        have hskip := scanFrom_skip_lead
          (SampledBezierCurve.from_curve sqrtFn (lineCurve p d)).arc_length_parametrization
          off (M + 1) 0 0 10 (by omega)
          (by
            intro j _ hj
            rw [hA j (by omega)]
            rw [heq]
            have : (j : ℚ) < (M + 1 : Nat) := by exact_mod_cast (by omega : j < M + 1)
            exact mul_lt_mul_of_pos_right this hpos)
        norm_num at hskip
        have hsm := scanFrom_skip_eq
          (SampledBezierCurve.from_curve sqrtFn (lineCurve p d)).arc_length_parametrization
          off (M + 1) M 10 (by simp [BEZIER_SAMPLE_RATE]; omega)
          (by rw [hA (M + 1) (by omega), heq]; exact lt_irrefl _)
          (by rw [hA (M + 1) (by omega), heq]; exact lt_irrefl _)
        by_cases hm9' : M + 1 = 9
        · -- off = 9·h: the loop runs off the end with bounds (8, 10)
          have hM : M = 8 := by omega
          subst hM
          have hstop := scanFrom_stop
            (SampledBezierCurve.from_curve sqrtFn (lineCurve p d)).arc_length_parametrization
            off 10 8 10 (by norm_num [BEZIER_SAMPLE_RATE])
          rw [pct_eval _ off 8 10 ((hskip.trans hsm).trans hstop)]
          rw [hA 8 (by norm_num), hA 10 (by norm_num), heq]
          push_cast
          rw [show (10 : ℚ) * lineSegLen sqrtFn d - 8 * lineSegLen sqrtFn d
              = 2 * lineSegLen sqrtFn d from by ring]
          field_simp
          ring
        · -- off = m·h with 1 ≤ m ≤ 8: break at m+1 with bounds (m-1, m+1)
          have hlt2 : M + 2 < 10 := by omega
          have hgt2 := scanFrom_gt
            (SampledBezierCurve.from_curve sqrtFn (lineCurve p d)).arc_length_parametrization
            off (M + 2) M 10 (by simpa [BEZIER_SAMPLE_RATE] using hlt2)
            (by
              rw [hA (M + 2) (by omega), heq]
              have : ((M + 1 : Nat) : ℚ) < ((M + 2 : Nat) : ℚ) := by push_cast; linarith
              exact not_lt.mpr (le_of_lt (mul_lt_mul_of_pos_right this hpos)))
            (by
              rw [hA (M + 2) (by omega), heq]
              have : ((M + 1 : Nat) : ℚ) < ((M + 2 : Nat) : ℚ) := by push_cast; linarith
              exact mul_lt_mul_of_pos_right this hpos)
          rw [pct_eval _ off M (M + 2) ((hskip.trans hsm).trans hgt2)]
          rw [hA M (by omega), hA (M + 2) (by omega), heq]
          push_cast
          rw [show ((M : ℚ) + 2) * lineSegLen sqrtFn d - (M : ℚ) * lineSegLen sqrtFn d
              = 2 * lineSegLen sqrtFn d from by ring]
          field_simp
          ring
    · -- m·h < off < (m+1)·h: break at m+1 with bounds (m, m+1)
      have hlt : (m : ℚ) * lineSegLen sqrtFn d < off :=
        lt_of_le_of_ne hml (fun e => heq e.symm)
      have hm8 : m ≤ 8 := by
        by_cases h9 : m = 9
        · exfalso
          rw [h9] at hlt
          norm_num at hlt
          linarith
        · omega
      have hskip := scanFrom_skip_lead
        (SampledBezierCurve.from_curve sqrtFn (lineCurve p d)).arc_length_parametrization
        off (m + 1) 0 0 10 (by omega)
        (by
          intro j _ hj
          rw [hA j (by omega)]
          have hjm : (j : ℚ) ≤ (m : ℚ) := by exact_mod_cast (by omega : j ≤ m)
          exact lt_of_le_of_lt (mul_le_mul_of_nonneg_right hjm hpos.le) hlt)
      norm_num at hskip
      have hgt2 := scanFrom_gt
        (SampledBezierCurve.from_curve sqrtFn (lineCurve p d)).arc_length_parametrization
        off (m + 1) m 10 (by simp [BEZIER_SAMPLE_RATE]; omega)
        (by
          rw [hA (m + 1) (by omega)]
          push_cast
          exact not_lt.mpr (le_of_lt hmu))
        (by
          rw [hA (m + 1) (by omega)]
          push_cast
          exact hmu)
      rw [pct_eval _ off m (m + 1) (hskip.trans hgt2)]
      rw [hA m (by omega), hA (m + 1) (by omega)]
      push_cast
      rw [show ((m : ℚ) + 1) * lineSegLen sqrtFn d - (m : ℚ) * lineSegLen sqrtFn d
          = lineSegLen sqrtFn d from by ring]
      field_simp
      ring

/-- C5: for a `SampledBezierCurve` built from a non-degenerate cubic
(the sampled arc-length table is strictly increasing; `sqrt` is
abstracted as `sqrtFn`), `get_bezier_percentage_from_offset 0 = 0` and
`get_bezier_percentage_from_offset arc_length = 1`; an offset beyond the
total arc length does not fail but extrapolates linearly from the
bracket formed by the last two samples (indices 9 and 10); and for a
curve whose four control points are collinear and evenly spaced, the
returned percentage is linear in the offset — exactly
`offset / (10 · segment length) = offset / arc_length` for every
nonnegative offset. -/
theorem C5_bezier_percentage_endpoints_linearity (sqrtFn : ℚ → ℚ) (curve : CubicCurve)
    (hmono : ∀ i, i < 10 →
      bezierArcLengthAt sqrtFn curve i < bezierArcLengthAt sqrtFn curve (i + 1)) :
    (SampledBezierCurve.from_curve sqrtFn curve).get_bezier_percentage_from_offset 0 = 0 ∧
    (SampledBezierCurve.from_curve sqrtFn curve).get_bezier_percentage_from_offset
        (SampledBezierCurve.from_curve sqrtFn curve).arc_length = 1 ∧
    (∀ off, (SampledBezierCurve.from_curve sqrtFn curve).arc_length < off →
      (SampledBezierCurve.from_curve sqrtFn curve).get_bezier_percentage_from_offset off
        = 9 / 10 + 1 / 10 * ((off - bezierArcLengthAt sqrtFn curve 9)
            / (bezierArcLengthAt sqrtFn curve 10 - bezierArcLengthAt sqrtFn curve 9))) ∧
    (∀ (p d : BezierControlPoint), 0 < lineSegLen sqrtFn d →
      (SampledBezierCurve.from_curve sqrtFn (lineCurve p d)).arc_length
          = 10 * lineSegLen sqrtFn d ∧
      (∀ off, 0 ≤ off →
        (SampledBezierCurve.from_curve sqrtFn
            (lineCurve p d)).get_bezier_percentage_from_offset off
          = off / (10 * lineSegLen sqrtFn d))) := by
  have h0 : bezierArcLengthAt sqrtFn curve 0 = 0 := bezierArcLengthAt_zero sqrtFn curve
  have hchain := alp_strict_chain (bezierArcLengthAt sqrtFn curve) hmono
  refine ⟨?_, ?_, ?_, ?_⟩
  · -- offset 0: the scan skips the equal entry at index 0 and breaks at 1
    have hs1 := scanFrom_skip_eq (bezierArcLengthAt sqrtFn curve) 0 0 0 10
      (by norm_num [BEZIER_SAMPLE_RATE])
      (by rw [h0]; exact lt_irrefl 0) (by rw [h0]; exact lt_irrefl 0)
    have h1pos : 0 < bezierArcLengthAt sqrtFn curve 1 := h0 ▸ hmono 0 (by norm_num)
    have hs2 := scanFrom_gt (bezierArcLengthAt sqrtFn curve) 0 1 0 10
      (by norm_num [BEZIER_SAMPLE_RATE])
      (by exact not_lt.mpr h1pos.le) (by exact h1pos)
    rw [pct_eval _ 0 0 1 (hs1.trans hs2)]
    show (0 : ℚ) / 10 + ((1 : ℚ) / 10 - 0 / 10)
        * ((0 - bezierArcLengthAt sqrtFn curve 0)
           / (bezierArcLengthAt sqrtFn curve 1 - bezierArcLengthAt sqrtFn curve 0)) = 0
    rw [h0]
    norm_num
  · -- offset = arc_length: every scanned entry is below it, bounds (9, 10)
    have hall : ∀ j, 0 ≤ j → j < 10 → bezierArcLengthAt sqrtFn curve j
        < bezierArcLengthAt sqrtFn curve 10 := fun j _ hj => hchain j 10 hj (by omega)
    have hscan := scanFrom_all_lt (bezierArcLengthAt sqrtFn curve)
      (bezierArcLengthAt sqrtFn curve 10) 10 0 0 10 (by norm_num) hall
    norm_num at hscan
    rw [pct_eval _ _ 9 10 hscan]
    have hne : bezierArcLengthAt sqrtFn curve 10 - bezierArcLengthAt sqrtFn curve 9 ≠ 0 :=
      sub_ne_zero.mpr (ne_of_gt (hmono 9 (by norm_num)))
    show (9 : ℚ) / 10 + ((10 : ℚ) / 10 - 9 / 10)
        * ((bezierArcLengthAt sqrtFn curve 10 - bezierArcLengthAt sqrtFn curve 9)
           / (bezierArcLengthAt sqrtFn curve 10 - bezierArcLengthAt sqrtFn curve 9)) = 1
    rw [div_self hne]
    norm_num
  · -- offset beyond arc_length: same bounds, explicit extrapolation formula
    intro off hoff
    have hall : ∀ j, 0 ≤ j → j < 10 → bezierArcLengthAt sqrtFn curve j < off :=
      fun j _ hj => lt_trans (hchain j 10 hj (by omega)) hoff
    have hscan := scanFrom_all_lt (bezierArcLengthAt sqrtFn curve) off 10 0 0 10
      (by norm_num) hall
    norm_num at hscan
    rw [pct_eval _ off 9 10 hscan]
    show (9 : ℚ) / 10 + ((10 : ℚ) / 10 - 9 / 10)
        * ((off - bezierArcLengthAt sqrtFn curve 9)
           / (bezierArcLengthAt sqrtFn curve 10 - bezierArcLengthAt sqrtFn curve 9)) = _
    ring
  · -- the straight-line curve: percentage is offset / (10 · segment length)
    intro p d hpos
    constructor
    · show bezierArcLengthAt sqrtFn (lineCurve p d) 10 = 10 * lineSegLen sqrtFn d
      rw [bezierArcLengthAt_lineCurve sqrtFn p d 10 (by norm_num)]
      push_cast
      ring
    · intro off hoff
      exact line_pct sqrtFn p d hpos off hoff

theorem C5_bezier_percentage_endpoints_linearity_witness :
    (∀ i, i < 10 →
      bezierArcLengthAt sqrtW (lineCurve ⟨0, 0⟩ ⟨1, 0⟩) i
        < bezierArcLengthAt sqrtW (lineCurve ⟨0, 0⟩ ⟨1, 0⟩) (i + 1)) ∧
    ((SampledBezierCurve.from_curve sqrtW
        (lineCurve ⟨0, 0⟩ ⟨1, 0⟩)).get_bezier_percentage_from_offset 0 = 0 ∧
     (SampledBezierCurve.from_curve sqrtW
        (lineCurve ⟨0, 0⟩ ⟨1, 0⟩)).get_bezier_percentage_from_offset
          (SampledBezierCurve.from_curve sqrtW (lineCurve ⟨0, 0⟩ ⟨1, 0⟩)).arc_length = 1 ∧
     (∀ off, (SampledBezierCurve.from_curve sqrtW (lineCurve ⟨0, 0⟩ ⟨1, 0⟩)).arc_length < off →
       (SampledBezierCurve.from_curve sqrtW
          (lineCurve ⟨0, 0⟩ ⟨1, 0⟩)).get_bezier_percentage_from_offset off
         = 9 / 10 + 1 / 10 * ((off - bezierArcLengthAt sqrtW (lineCurve ⟨0, 0⟩ ⟨1, 0⟩) 9)
             / (bezierArcLengthAt sqrtW (lineCurve ⟨0, 0⟩ ⟨1, 0⟩) 10
                - bezierArcLengthAt sqrtW (lineCurve ⟨0, 0⟩ ⟨1, 0⟩) 9))) ∧
     (∀ (p d : BezierControlPoint), 0 < lineSegLen sqrtW d →
       (SampledBezierCurve.from_curve sqrtW (lineCurve p d)).arc_length
           = 10 * lineSegLen sqrtW d ∧
       (∀ off, 0 ≤ off →
         (SampledBezierCurve.from_curve sqrtW
             (lineCurve p d)).get_bezier_percentage_from_offset off
           = off / (10 * lineSegLen sqrtW d)))) := by
  have hseg : lineSegLen sqrtW ⟨1, 0⟩ = 3 / 10 := by
    norm_num [lineSegLen, sqrtW]
  have hm : ∀ i, i < 10 →
      bezierArcLengthAt sqrtW (lineCurve ⟨0, 0⟩ ⟨1, 0⟩) i
        < bezierArcLengthAt sqrtW (lineCurve ⟨0, 0⟩ ⟨1, 0⟩) (i + 1) := by
    intro i hi
    rw [bezierArcLengthAt_lineCurve sqrtW ⟨0, 0⟩ ⟨1, 0⟩ i (by omega),
      bezierArcLengthAt_lineCurve sqrtW ⟨0, 0⟩ ⟨1, 0⟩ (i + 1) (by omega), hseg]
    have hcast : (i : ℚ) < ((i + 1 : Nat) : ℚ) := by push_cast; linarith
    linarith
  exact ⟨hm, C5_bezier_percentage_endpoints_linearity sqrtW (lineCurve ⟨0, 0⟩ ⟨1, 0⟩) hm⟩
